import Mathlib

/-!
Shallow embedding of the bartender repository's core pipeline:
the LangGraph food-pairing graph (`foodPairingGraph.ts`), the structured
output recovery layer (`parseDishRecommendations`, `parseBeveragePairing`,
`LLMService.parseRecommendations` / `extractFromText`), the PDF chunking
engine (`PDFService.splitTextIntoChunks`), and the RAG vector-store
insertion retry (`ragService.createVectorStore` / `runRagPipeline`).

JavaScript runtime values that flow through the recovery layer are
modelled by the `Json` type (with `undef` for JS `undefined`); JS
exceptions are modelled with `Except`; `JSON.parse` is modelled by an
executable strict JSON parser (`parseJson`).
-/

namespace Bartender

/-- JS runtime values reachable from `JSON.parse` output plus `undefined`
(the result of reading a missing property). Numbers are modelled as
rationals, which is exact for every JSON literal. -/
inductive Json where
  | undef
  | null
  | bool (b : Bool)
  | num (q : Rat)
  | str (s : String)
  | arr (elems : List Json)
  | obj (fields : List (String × Json))

/-- JSON whitespace characters accepted by `JSON.parse` (RFC 8259). -/
def isJsonWs (c : Char) : Bool :=
  c = ' ' || c = '\t' || c = '\n' || c = '\r'

/-- Whitespace for JS `String.prototype.trim`, the regex class `\s`, and
`parseInt` leading-space skipping (WhiteSpace plus LineTerminator). -/
def isJsWsChar (c : Char) : Bool :=
  c = ' ' || c = '\t' || c = '\n' || c = '\r' || c = '\x0b' || c = '\x0c' ||
  c = ' ' || c = ' ' || (0x2000 ≤ c.toNat && c.toNat ≤ 0x200a) ||
  c = ' ' || c = ' ' || c = ' ' || c = ' ' ||
  c = '　' || c = '﻿'

/-- Does the first list start with the second list? -/
def startsWithL : List Char → List Char → Bool
  | _, [] => true
  | [], _ :: _ => false
  | c :: cs, d :: ds => c = d && startsWithL cs ds

/-- Contiguous-substring test on character lists (JS `String.prototype.includes`). -/
def listHasInfix (hay needle : List Char) : Bool :=
  match hay with
  | [] => startsWithL [] needle
  | _ :: rest => startsWithL hay needle || listHasInfix rest needle

/-- JS `a.includes(b)` on strings. -/
def containsSub (s sub : String) : Bool :=
  listHasInfix s.toList sub.toList

/-- JS `String.prototype.trim` on a character list. -/
def jsTrimL (cs : List Char) : List Char :=
  ((cs.dropWhile isJsWsChar).reverse.dropWhile isJsWsChar).reverse

/-- JS `String.prototype.trim`. -/
def jsTrim (s : String) : String :=
  String.mk (jsTrimL s.toList)

/-- Hexadecimal digit value, for `\uXXXX` escapes. -/
def hexVal (c : Char) : Option Nat :=
  if '0' ≤ c ∧ c ≤ '9' then some (c.toNat - '0'.toNat)
  else if 'a' ≤ c ∧ c ≤ 'f' then some (c.toNat - 'a'.toNat + 10)
  else if 'A' ≤ c ∧ c ≤ 'F' then some (c.toNat - 'A'.toNat + 10)
  else none

/-- Parse the body of a JSON string literal (after the opening quote),
returning the decoded string and the input past the closing quote.
Raw control characters are rejected, as in strict `JSON.parse`. -/
def parseJsonStrAux : Nat → List Char → List Char → Option (String × List Char)
  | 0, _, _ => none
  | _ + 1, [], _ => none
  | fuel + 1, c :: rest, acc =>
    if c = '"' then some (String.mk acc.reverse, rest)
    else if c = '\\' then
      match rest with
      | [] => none
      | e :: rest2 =>
        if e = '"' then parseJsonStrAux fuel rest2 ('"' :: acc)
        else if e = '\\' then parseJsonStrAux fuel rest2 ('\\' :: acc)
        else if e = '/' then parseJsonStrAux fuel rest2 ('/' :: acc)
        else if e = 'b' then parseJsonStrAux fuel rest2 ('\x08' :: acc)
        else if e = 'f' then parseJsonStrAux fuel rest2 ('\x0c' :: acc)
        else if e = 'n' then parseJsonStrAux fuel rest2 ('\n' :: acc)
        else if e = 'r' then parseJsonStrAux fuel rest2 ('\r' :: acc)
        else if e = 't' then parseJsonStrAux fuel rest2 ('\t' :: acc)
        else if e = 'u' then
          match rest2 with
          | h1 :: h2 :: h3 :: h4 :: rest3 =>
            match hexVal h1, hexVal h2, hexVal h3, hexVal h4 with
            | some a, some b, some c3, some d =>
              parseJsonStrAux fuel rest3
                (Char.ofNat (a * 4096 + b * 256 + c3 * 16 + d) :: acc)
            | _, _, _, _ => none
          | _ => none
        else none
    else if c.toNat < 32 then none
    else parseJsonStrAux fuel rest (c :: acc)

/-- Fold decimal digit characters into a natural number. -/
def digitsToNat (ds : List Char) : Nat :=
  ds.foldl (fun acc c => acc * 10 + (c.toNat - '0'.toNat)) 0

/-- Parse a JSON number literal (strict grammar:
`-? (0 | [1-9][0-9]*) (. [0-9]+)? ([eE][+-]?[0-9]+)?`). -/
def parseJsonNum (cs : List Char) : Option (Rat × List Char) :=
  let (neg, cs1) :=
    match cs with
    | '-' :: rest => (true, rest)
    | _ => (false, cs)
  match cs1 with
  | [] => none
  | c :: _ =>
    if ¬ c.isDigit then none
    else
      let intDigits := cs1.takeWhile Char.isDigit
      let cs2 := cs1.dropWhile Char.isDigit
      if intDigits.length > 1 ∧ c = '0' then none
      else
        let intPart : Nat := digitsToNat intDigits
        let (fracDigits, cs3) :=
          match cs2 with
          | '.' :: rest =>
            (rest.takeWhile Char.isDigit, rest.dropWhile Char.isDigit)
          | _ => ([], cs2)
        if cs2 ≠ cs3 ∧ fracDigits.isEmpty then none
        else
          let (expOk, expNeg, expDigits, cs4) :=
            match cs3 with
            | e :: rest =>
              if e = 'e' ∨ e = 'E' then
                match rest with
                | '+' :: rest2 =>
                  (!(rest2.takeWhile Char.isDigit).isEmpty, false,
                    rest2.takeWhile Char.isDigit, rest2.dropWhile Char.isDigit)
                | '-' :: rest2 =>
                  (!(rest2.takeWhile Char.isDigit).isEmpty, true,
                    rest2.takeWhile Char.isDigit, rest2.dropWhile Char.isDigit)
                | _ =>
                  (!(rest.takeWhile Char.isDigit).isEmpty, false,
                    rest.takeWhile Char.isDigit, rest.dropWhile Char.isDigit)
              else (true, false, [], cs3)
            | [] => (true, false, [], cs3)
          if !expOk then none
          else
            let expN : Nat := digitsToNat expDigits
            let base : Int :=
              Int.ofNat (intPart * 10 ^ fracDigits.length + digitsToNat fracDigits)
            let signed : Int := if neg then -base else base
            let q : Rat :=
              if expNeg then mkRat signed (10 ^ fracDigits.length * 10 ^ expN)
              else mkRat (signed * Int.ofNat (10 ^ expN)) (10 ^ fracDigits.length)
            some (q, cs4)

mutual

/-- Parse one JSON value (strict `JSON.parse` grammar), fuel-indexed. -/
def parseValue : Nat → List Char → Option (Json × List Char)
  | 0, _ => none
  | fuel + 1, cs =>
    let cs := cs.dropWhile isJsonWs
    match cs with
    | [] => none
    | c :: rest =>
      if c = '{' then
        match rest.dropWhile isJsonWs with
        | '}' :: r2 => some (Json.obj [], r2)
        | r2 => parseMembers fuel r2 []
      else if c = '[' then
        match rest.dropWhile isJsonWs with
        | ']' :: r2 => some (Json.arr [], r2)
        | r2 => parseElems fuel r2 []
      else if c = '"' then
        match parseJsonStrAux (rest.length + 1) rest [] with
        | some (s, r) => some (Json.str s, r)
        | none => none
      else if startsWithL cs ['t', 'r', 'u', 'e'] then
        some (Json.bool true, cs.drop 4)
      else if startsWithL cs ['f', 'a', 'l', 's', 'e'] then
        some (Json.bool false, cs.drop 5)
      else if startsWithL cs ['n', 'u', 'l', 'l'] then
        some (Json.null, cs.drop 4)
      else
        match parseJsonNum cs with
        | some (q, r) => some (Json.num q, r)
        | none => none

/-- Parse the elements of a non-empty JSON array (after `[` and leading
whitespace), accumulating parsed elements. -/
def parseElems : Nat → List Char → List Json → Option (Json × List Char)
  | 0, _, _ => none
  | fuel + 1, cs, acc =>
    match parseValue fuel cs with
    | none => none
    | some (v, rest) =>
      match rest.dropWhile isJsonWs with
      | ',' :: r2 => parseElems fuel r2 (acc ++ [v])
      | ']' :: r2 => some (Json.arr (acc ++ [v]), r2)
      | _ => none

/-- Parse the members of a non-empty JSON object (after `{` and leading
whitespace), accumulating parsed key-value pairs. -/
def parseMembers : Nat → List Char → List (String × Json) → Option (Json × List Char)
  | 0, _, _ => none
  | fuel + 1, cs, acc =>
    match cs with
    | '"' :: rest =>
      match parseJsonStrAux (rest.length + 1) rest [] with
      | none => none
      | some (k, r1) =>
        match r1.dropWhile isJsonWs with
        | ':' :: r2 =>
          match parseValue fuel r2 with
          | none => none
          | some (v, r3) =>
            match r3.dropWhile isJsonWs with
            | ',' :: r4 =>
              match r4.dropWhile isJsonWs with
              | r5 => parseMembers fuel r5 (acc ++ [(k, v)])
            | '}' :: r4 => some (Json.obj (acc ++ [(k, v)]), r4)
            | _ => none
        | _ => none
    | _ => none

end

/-- Model of strict `JSON.parse`: parse a complete JSON text, rejecting
trailing garbage. `none` models a thrown `SyntaxError`. -/
def parseJson (s : String) : Option Json :=
  match parseValue (4 * s.toList.length + 16) s.toList with
  | some (v, rest) => if (rest.dropWhile isJsonWs).isEmpty then some v else none
  | none => none


/-- Model of `content.match(/\[[\s\S]*\]/)` (and the brace variant): the
leftmost-longest match runs from the first `openC` to the last `closeC`
of the text, provided that close bracket lies after the open bracket;
otherwise there is no match. -/
def extractBlockL (openC closeC : Char) (cs : List Char) : Option (List Char) :=
  let t := cs.dropWhile (fun c => !(c = openC))
  let r := (t.reverse.dropWhile (fun c => !(c = closeC))).reverse
  if r.isEmpty then none else some r

/-- String version of `extractBlockL`. -/
def extractBlock (openC closeC : Char) (s : String) : Option String :=
  (extractBlockL openC closeC s.toList).map String.mk

/-- Last binding of a key in a parsed JSON object (`JSON.parse` keeps the
last duplicate key). -/
def lookupLast (fields : List (String × Json)) (k : String) : Option Json :=
  (fields.filterMap (fun p => if p.1 = k then some p.2 else none)).getLast?

/-- JS property read `j[k]`. Reading from `null`/`undefined` throws a
`TypeError` (modelled as `Except.error`); reading a missing key of an
object, or any of the keys used here from a primitive or array, yields
`undefined`. -/
def jsGet : Json → String → Except Unit Json
  | Json.undef, _ => Except.error ()
  | Json.null, _ => Except.error ()
  | Json.obj fs, k => Except.ok ((lookupLast fs k).getD Json.undef)
  | _, _ => Except.ok Json.undef

/-- Total variant of `jsGet`, used only to state hypotheses about source
records (`null`/`undefined` read as `undefined` instead of throwing). -/
def jsGetTotal : Json → String → Json
  | Json.obj fs, k => (lookupLast fs k).getD Json.undef
  | _, _ => Json.undef

/-- JS truthiness of a runtime value. -/
def jsTruthy : Json → Bool
  | Json.undef => false
  | Json.null => false
  | Json.bool b => b
  | Json.num q => !(q = 0)
  | Json.str s => !(s = "")
  | Json.arr _ => true
  | Json.obj _ => true

/-- JS `a || b` on runtime values. -/
def jsOr (a b : Json) : Json :=
  if jsTruthy a then a else b

/-- JS `a || b` where `a` is a string (used for error-message fallbacks). -/
def jsOrStr (a b : String) : String :=
  if a = "" then b else a

/-- JS `a || b` where `a` is a nullable string (e.g. `cuisine || '通用'`). -/
def jsOrOptStr (a : Option String) (b : String) : String :=
  match a with
  | some s => jsOrStr s b
  | none => b

/-- JS `Array.isArray(j) ? j : []`, returning the element list. -/
def asArrayOrEmpty : Json → List Json
  | Json.arr l => l
  | _ => []

/-- A normalized dish recommendation, as produced by
`parseDishRecommendations` (`foodPairingGraph.ts`). Field values keep
their JS runtime representation. -/
structure Dish where
  id : Json
  name : Json
  description : Json
  cuisine : Json
  requiredIngredients : List Json
  cookingTime : Json
  difficulty : Json
  steps : List Json
  source : Json
  tags : List Json

/-- The id picked for a recovered record: the source id when truthy,
otherwise a freshly generated UUID (`dish.id || randomUUID()`); the
second component is the next free index of the UUID supply. -/
def pickId (uuids : Nat → String) (ctr : Nat) (raw : Json) : Json × Nat :=
  if jsTruthy raw then (raw, ctr) else (Json.str (uuids ctr), ctr + 1)

/-- Normalization of one element of the parsed dish array
(`foodPairingGraph.ts`, `parseDishRecommendations`'s `parsed.map`).
Every property read hits the element itself, so the callback throws
exactly when the element is `null`/`undefined` (the first read throws a
`TypeError`); otherwise each read is `jsGetTotal`. -/
def normalizeDish (uuids : Nat → String) (defaultCuisine : String) (d : Json)
    (ctr : Nat) : Except Unit (Dish × Nat) :=
  match d with
  | Json.null => Except.error ()
  | Json.undef => Except.error ()
  | _ =>
    let (idVal, ctr1) := pickId uuids ctr (jsGetTotal d ("id"))
    Except.ok
      ({ id := idVal
         name := jsOr (jsGetTotal d ("name")) (Json.str ("未知菜品"))
         description := jsOr (jsGetTotal d ("description")) (Json.str (""))
         cuisine := jsOr (jsGetTotal d ("cuisine")) (Json.str defaultCuisine)
         requiredIngredients := asArrayOrEmpty (jsGetTotal d ("requiredIngredients"))
         cookingTime := jsOr (jsGetTotal d ("cookingTime")) (Json.num 30)
         difficulty := jsOr (jsGetTotal d ("difficulty")) (Json.num 3)
         steps := asArrayOrEmpty (jsGetTotal d ("steps"))
         source := jsGetTotal d ("source")
         tags := asArrayOrEmpty (jsGetTotal d ("tags")) }, ctr1)

/-- `parsed.map(...)` over the dish array, threading the UUID supply;
an exception at any element aborts the whole `map`. -/
def normalizeDishes (uuids : Nat → String) (defaultCuisine : String) :
    List Json → Nat → Except Unit (List Dish × Nat)
  | [], ctr => Except.ok ([], ctr)
  | d :: rest, ctr =>
    match normalizeDish uuids defaultCuisine d ctr with
    | Except.error e => Except.error e
    | Except.ok (x, c1) =>
      match normalizeDishes uuids defaultCuisine rest c1 with
      | Except.error e => Except.error e
      | Except.ok (xs, c2) => Except.ok (x :: xs, c2)

/-- Body of the `try` block of `parseDishRecommendations`
(`foodPairingGraph.ts` lines 514-544): extract the first-to-last
bracket block, `JSON.parse` it (throwing on failure), and normalize each
element (`.map` on a non-array value throws). When the regex does not
match, control falls through the `try` block to `return []`. -/
def tryParseDishes (uuids : Nat → String) (content defaultCuisine : String) :
    Except Unit (List Dish × Nat) :=
  match extractBlock '[' ']' content with
  | none => Except.ok ([], 0)
  | some block =>
    match parseJson block with
    | none => Except.error ()
    | some (Json.arr l) => normalizeDishes uuids defaultCuisine l 0
    | some _ => Except.error ()

/-- `parseDishRecommendations(content, defaultCuisine)`
(`foodPairingGraph.ts`): the `catch` turns any exception of the body
into the empty collection. -/
def parseDishRecommendations (uuids : Nat → String)
    (content defaultCuisine : String) : List Dish :=
  match tryParseDishes uuids content defaultCuisine with
  | Except.ok (l, _) => l
  | Except.error _ => []


/-- Split a character list at every occurrence of a separator character
(JS `String.prototype.split` with a single-character separator). -/
def splitOnCharL (sep : Char) : List Char → List (List Char)
  | [] => [[]]
  | c :: rest =>
    let r := splitOnCharL sep rest
    if c = sep then [] :: r
    else
      match r with
      | h :: t => (c :: h) :: t
      | [] => [[c]]

/-- Model of `line.match(/:\s*["']?([^"',\]]+)["']?/)`, returning the
first capture group. When the whitespace-maximal attempt at a colon
fails but at least one whitespace character was consumed, the regex
engine backtracks `\s*` by one character and captures that single
whitespace character (which the caller's `.trim()` erases); this is
modelled by returning a one-space capture. -/
def extractValueAux : List Char → Option (List Char)
  | [] => none
  | ':' :: rest =>
    let r2 := rest.dropWhile isJsWsChar
    let r3 :=
      match r2 with
      | c :: t => if c = '"' ∨ c.toNat = 39 then t else r2
      | [] => r2
    let run := r3.takeWhile (fun c => !(c = '"' || c.toNat = 39 || c = ',' || c = ']'))
    if !run.isEmpty then some run
    else if rest.length ≠ r2.length then some [' ']
    else extractValueAux rest
  | _ :: rest => extractValueAux rest

/-- `LLMService.extractValue` (`llmService.ts`): first capture of the
value regex, trimmed; the empty string when there is no match. -/
def extractValue (line : String) : String :=
  match extractValueAux line.toList with
  | some run => jsTrim (String.mk run)
  | none => ""

/-- Hexadecimal digit test, for `parseInt`'s `0x` prefix handling. -/
def isHexDigit (c : Char) : Bool :=
  (hexVal c).isSome

/-- Fold hexadecimal digit characters into a natural number. -/
def hexDigitsToNat (ds : List Char) : Nat :=
  ds.foldl (fun acc c => acc * 16 + ((hexVal c).getD 0)) 0

/-- JS `parseInt(s)` with no radix argument: skip leading whitespace,
optional sign, auto-detect a `0x` prefix, and read the maximal digit
prefix; `none` models `NaN`. -/
def parseIntJS (s : String) : Option Int :=
  let cs := s.toList.dropWhile isJsWsChar
  let (neg, cs1) :=
    match cs with
    | '-' :: rest => (true, rest)
    | '+' :: rest => (false, rest)
    | _ => (false, cs)
  let (digits, isHex) :=
    match cs1 with
    | '0' :: x :: rest =>
      if x = 'x' ∨ x = 'X' then (rest.takeWhile isHexDigit, true)
      else (cs1.takeWhile Char.isDigit, false)
    | _ => (cs1.takeWhile Char.isDigit, false)
  if digits.isEmpty then none
  else
    let n : Nat := if isHex then hexDigitsToNat digits else digitsToNat digits
    some (if neg then -(Int.ofNat n) else Int.ofNat n)

/-- `item.trim().replace(/^["']|["']$/g, '')`: drop one leading and one
trailing quote character (double or single), if present. -/
def stripQuoteEnds (cs : List Char) : List Char :=
  let cs1 :=
    match cs with
    | c :: rest => if c = '"' ∨ c.toNat = 39 then rest else cs
    | [] => cs
  match cs1.getLast? with
  | some c => if c = '"' ∨ c.toNat = 39 then cs1.dropLast else cs1
  | none => cs1

/-- `LLMService.parseArray` (`llmService.ts`): split the bracket body on
commas, trim and unquote each item, and drop empty items. -/
def parseArrayItems (inner : List Char) : List String :=
  ((splitOnCharL ',' inner).map
    (fun it => String.mk (stripQuoteEnds (jsTrimL it)))).filter (fun s => s ≠ "")

/-- Model of `content.match(/KEY:\s*\[([\s\S]*?)\]/)` where `KEY` is a
quoted field-name literal: find, left to right, an occurrence of the
literal followed by optional whitespace and `[` that has a later `]`,
and return the (lazy, hence shortest) capture between the brackets. -/
def findFieldArrayAux (lit : List Char) : List Char → Option (List Char)
  | [] => none
  | c :: rest =>
    if startsWithL (c :: rest) lit then
      let after := (c :: rest).drop lit.length
      let r2 := after.dropWhile isJsWsChar
      match r2 with
      | '[' :: r3 =>
        let cap := r3.takeWhile (fun d => !(d = ']'))
        if cap.length = r3.length then findFieldArrayAux lit rest
        else some cap
      | _ => findFieldArrayAux lit rest
    else findFieldArrayAux lit rest

/-- Update (or append) a key in a JS object's ordered field list. -/
def setFieldList : List (String × Json) → String → Json → List (String × Json)
  | [], k, v => [(k, v)]
  | (k0, v0) :: rest, k, v =>
    if k0 = k then (k0, v) :: rest
    else (k0, v0) :: setFieldList rest k v

/-- JS property assignment `r[k] = v` on an object value. -/
def setField : Json → String → Json → Json
  | Json.obj fs, k, v => Json.obj (setFieldList fs k v)
  | j, _, _ => j

/-- The fresh recipe template of `LLMService.extractFromText`
(`llmService.ts` lines 140-151); note it has no `id` field. -/
def newRecipe : Json :=
  Json.obj
    [("name", Json.str ("")),
     ("description", Json.str ("")),
     ("ingredients", Json.arr []),
     ("steps", Json.arr []),
     ("difficulty", Json.num 1),
     ("estimatedTime", Json.num 0),
     ("category", Json.str ("经典")),
     ("glassType", Json.str ("古典杯")),
     ("technique", Json.str ("摇和")),
     ("garnish", Json.str (""))]

/-- One loop iteration of `LLMService.extractFromText` over a line:
start a new recipe on a name marker (flushing the previous one), then
update the current recipe's fields from the line. -/
def recipeStep (content : List Char) (st : Option Json × List Json)
    (line : String) : Option Json × List Json :=
  let t := jsTrim line
  let flush : Option Json → List Json :=
    fun c => match c with | some r => [r] | none => []
  let (curr, recipes) :=
    if containsSub t ("\"name\"") || containsSub t ("鸡尾酒名称") then
      (some newRecipe, st.2 ++ flush st.1)
    else st
  match curr with
  | none => (none, recipes)
  | some r =>
    let r :=
      if containsSub t ("\"name\"") && containsSub t (":") then
        setField r ("name") (Json.str (extractValue t))
      else if containsSub t ("\"description\"") && containsSub t (":") then
        setField r ("description") (Json.str (extractValue t))
      else if containsSub t ("\"ingredients\"") && containsSub t ("[") then
        match findFieldArrayAux ("\"ingredients\":").toList content with
        | some inner =>
          setField r ("ingredients") (Json.arr ((parseArrayItems inner).map Json.str))
        | none => r
      else if containsSub t ("\"steps\"") && containsSub t ("[") then
        match findFieldArrayAux ("\"steps\":").toList content with
        | some inner =>
          setField r ("steps") (Json.arr ((parseArrayItems inner).map Json.str))
        | none => r
      else if containsSub t ("\"difficulty\"") && containsSub t (":") then
        setField r ("difficulty")
          (Json.num (match parseIntJS (extractValue t) with
            | some n => if n = 0 then 1 else mkRat n 1
            | none => 1))
      else if containsSub t ("\"estimatedTime\"") && containsSub t (":") then
        setField r ("estimatedTime")
          (Json.num (match parseIntJS (extractValue t) with
            | some n => mkRat n 1
            | none => 0))
      else r
    (some r, recipes)

/-- `LLMService.extractFromText` (`llmService.ts` lines 130-181):
line-oriented heuristic fallback; every operation it performs is total,
so it never throws. -/
def extractFromText (content : String) : List Json :=
  let lines := (splitOnCharL '\n' content.toList).map String.mk
  let (curr, recipes) := lines.foldl (recipeStep content.toList) (none, [])
  recipes ++ (match curr with | some r => [r] | none => [])

/-- Body of the `try` block of `LLMService.parseRecommendations`: return
the raw parsed array when the bracket block parses (a throwing
`JSON.parse` is the only exception source), otherwise fall back to
`extractFromText` inside the `try`. -/
def parseRecommendationsBody (content : String) : Except Unit (List Json) :=
  match extractBlock '[' ']' content with
  | some block =>
    match parseJson block with
    | some (Json.arr l) => Except.ok l
    | some _ => Except.ok []
    | none => Except.error ()
  | none => Except.ok (extractFromText content)

/-- `LLMService.parseRecommendations` (`llmService.ts` lines 111-127):
falsy content yields `[]`; an exception in the body is caught and
answered by `extractFromText`. -/
def parseRecommendations (content : Option String) : List Json :=
  match content with
  | none => []
  | some c =>
    if c = "" then []
    else
      match parseRecommendationsBody c with
      | Except.ok l => l
      | Except.error _ => extractFromText c


/-- A normalized beverage recommendation, as produced by
`parseBeveragePairing` (`foodPairingGraph.ts`). -/
structure Beverage where
  id : Json
  name : Json
  description : Json
  ingredients : List Json
  steps : List Json
  category : Json
  glassType : Json
  technique : Json
  garnish : Json
  difficulty : Json
  estimatedTime : Json
  source : Json
  tags : List Json

/-- A normalized pairing reason, as produced by `parseBeveragePairing`. -/
structure PairingReason where
  id : Json
  dishId : Json
  beverageId : Json
  reason : Json
  pairingType : Json
  score : Json

/-- Metadata of a complete pairing recommendation. The `model` field is
absent in the partial result built by `FoodPairingLangGraphService.execute`. -/
structure PairingMetadata where
  timestamp : String
  model : Option String
  dishCount : Nat
  beverageCount : Nat
  pairingCount : Nat

/-- The `CompletePairingRecommendation` result object
(`types/foodPairing.ts` shape, as built in `foodPairingGraph.ts`). -/
structure CompletePairingRecommendation where
  dishes : List Dish
  beverages : List Beverage
  pairingReasons : List PairingReason
  overallSuggestion : Json
  metadata : PairingMetadata

/-- Normalization of one element of `parsed.beverages`
(`foodPairingGraph.ts`, `parseBeveragePairing`); throws exactly on a
`null`/`undefined` element, like the dish callback. -/
def normalizeBeverage (uuids : Nat → String) (b : Json) (ctr : Nat) :
    Except Unit (Beverage × Nat) :=
  match b with
  | Json.null => Except.error ()
  | Json.undef => Except.error ()
  | _ =>
    let (idVal, ctr1) := pickId uuids ctr (jsGetTotal b ("id"))
    Except.ok
      ({ id := idVal
         name := jsOr (jsGetTotal b ("name")) (Json.str ("未知酒品"))
         description := jsOr (jsGetTotal b ("description")) (Json.str (""))
         ingredients := asArrayOrEmpty (jsGetTotal b ("ingredients"))
         steps := asArrayOrEmpty (jsGetTotal b ("steps"))
         category := jsGetTotal b ("category")
         glassType := jsGetTotal b ("glassType")
         technique := jsGetTotal b ("technique")
         garnish := jsGetTotal b ("garnish")
         difficulty := jsOr (jsGetTotal b ("difficulty")) (Json.num 3)
         estimatedTime := jsOr (jsGetTotal b ("estimatedTime")) (Json.num 5)
         source := jsGetTotal b ("source")
         tags := asArrayOrEmpty (jsGetTotal b ("tags")) }, ctr1)

/-- `parsed.beverages.map(...)`, threading the UUID supply. -/
def normalizeBeverages (uuids : Nat → String) :
    List Json → Nat → Except Unit (List Beverage × Nat)
  | [], ctr => Except.ok ([], ctr)
  | b :: rest, ctr =>
    match normalizeBeverage uuids b ctr with
    | Except.error e => Except.error e
    | Except.ok (x, c1) =>
      match normalizeBeverages uuids rest c1 with
      | Except.error e => Except.error e
      | Except.ok (xs, c2) => Except.ok (x :: xs, c2)

/-- Normalization of one element of `parsed.pairingReasons`; throws
exactly on a `null`/`undefined` element. -/
def normalizeReason (uuids : Nat → String) (r : Json) (ctr : Nat) :
    Except Unit (PairingReason × Nat) :=
  match r with
  | Json.null => Except.error ()
  | Json.undef => Except.error ()
  | _ =>
    let (idVal, ctr1) := pickId uuids ctr (jsGetTotal r ("id"))
    Except.ok
      ({ id := idVal
         dishId := jsOr (jsGetTotal r ("dishId")) (Json.str (""))
         beverageId := jsOr (jsGetTotal r ("beverageId")) (Json.str (""))
         reason := jsOr (jsGetTotal r ("reason")) (Json.str (""))
         pairingType := jsGetTotal r ("pairingType")
         score := jsGetTotal r ("score") }, ctr1)

/-- `parsed.pairingReasons.map(...)`, threading the UUID supply. -/
def normalizeReasons (uuids : Nat → String) :
    List Json → Nat → Except Unit (List PairingReason × Nat)
  | [], ctr => Except.ok ([], ctr)
  | r :: rest, ctr =>
    match normalizeReason uuids r ctr with
    | Except.error e => Except.error e
    | Except.ok (x, c1) =>
      match normalizeReasons uuids rest c1 with
      | Except.error e => Except.error e
      | Except.ok (xs, c2) => Except.ok (x :: xs, c2)

/-- The fallback result of `parseBeveragePairing` (`foodPairingGraph.ts`
lines 610-624): the input dishes pass through unchanged and the beverage
and pairing-reason collections are empty. -/
def fallbackPairing (now model : String) (dishes : List Dish) :
    CompletePairingRecommendation :=
  { dishes := dishes
    beverages := []
    pairingReasons := []
    overallSuggestion := Json.str ("抱歉，未能生成有效的酒品搭配推荐。")
    metadata :=
      { timestamp := now
        model := some model
        dishCount := dishes.length
        beverageCount := 0
        pairingCount := 0 } }

/-- Body of the `try` block of `parseBeveragePairing` when the brace
block was found and parsed: normalize beverages and pairing reasons
(property reads on `null` elements throw) and assemble the result.
`parsed` comes from a successful `JSON.parse`, which never yields
`undefined`, and a block starting with a brace parses to an object, so
its property reads are `jsGetTotal`. -/
def buildPairing (uuids : Nat → String) (now model : String)
    (parsed : Json) (dishes : List Dish) :
    Except Unit CompletePairingRecommendation :=
  match normalizeBeverages uuids (asArrayOrEmpty (jsGetTotal parsed ("beverages"))) 0 with
  | Except.error e => Except.error e
  | Except.ok (beverages, c1) =>
    match normalizeReasons uuids (asArrayOrEmpty (jsGetTotal parsed ("pairingReasons"))) c1 with
    | Except.error e => Except.error e
    | Except.ok (pairingReasons, _) =>
      Except.ok
        { dishes := dishes
          beverages := beverages
          pairingReasons := pairingReasons
          overallSuggestion :=
            jsOr (jsGetTotal parsed ("overallSuggestion"))
              (Json.str ("请根据个人口味选择合适的搭配方案。"))
          metadata :=
            { timestamp := now
              model := some model
              dishCount := dishes.length
              beverageCount := beverages.length
              pairingCount := pairingReasons.length } }

/-- `parseBeveragePairing(content, dishes)` (`foodPairingGraph.ts` lines
549-624): extract the first-to-last brace block and parse it; a missing
block falls through the `try`, and a parse or normalization exception is
caught; both produce the fallback result. -/
def parseBeveragePairing (uuids : Nat → String) (now model : String)
    (content : String) (dishes : List Dish) : CompletePairingRecommendation :=
  match extractBlock '{' '}' content with
  | none => fallbackPairing now model dishes
  | some block =>
    match parseJson block with
    | none => fallbackPairing now model dishes
    | some parsed =>
      match buildPairing uuids now model parsed dishes with
      | Except.ok res => res
      | Except.error _ => fallbackPairing now model dishes


/-- The `userInput` slice of the LangGraph state
(`foodPairingState.ts`); `cuisine = none` models `null`/absent, and
`drinkIngredients` is always an array once `createInitialState` ran. -/
structure UserInput where
  cuisine : Option String
  foodIngredients : List String
  drinkIngredients : List String

/-- The `metadata` slice of the LangGraph state. -/
structure StateMetadata where
  timestamp : String
  executionTime : Option Nat
  model : Option String

/-- The LangGraph pipeline state (`FoodPairingStateSchema`). `none`
models JS `null`/`undefined` for the nullable channels. Every state
produced by `createInitialState` and the two nodes carries a metadata
object, so `metadata` is kept non-optional. -/
structure PipelineState where
  userInput : UserInput
  agent1Output : Option (List Dish)
  agent2Output : Option CompletePairingRecommendation
  error : Option String
  metadata : StateMetadata

/-- A partial state update returned by a node; `none` on a channel means
the channel is left untouched by the merge. -/
structure StateUpdate where
  agent1Output : Option (Option (List Dish)) := none
  agent2Output : Option (Option CompletePairingRecommendation) := none
  error : Option (Option String) := none
  metadata : Option StateMetadata := none

/-- LangGraph channel merge of a partial node update into the state
(each top-level key of the returned object overwrites its channel). -/
def mergeState (s : PipelineState) (u : StateUpdate) : PipelineState :=
  { s with
    agent1Output := u.agent1Output.getD s.agent1Output
    agent2Output := u.agent2Output.getD s.agent2Output
    error := u.error.getD s.error
    metadata := u.metadata.getD s.metadata }

/-- Environment of one pipeline invocation: the UUID supply, the model
name, the timestamp, each node's measured elapsed time, and the outcome
of each node's single generation-provider call (`Except.error m` models
a thrown provider error with message `m`; `Except.ok none` models a
nullish `choices[0]?.message?.content`). -/
structure Env where
  uuids : Nat → String
  model : String
  now : String
  elapsedA : Nat
  elapsedB : Nat
  provA : Except String (Option String)
  provB : Except String (Option String)

/-- The update returned by `dishRecommenderNode`'s `catch` block. -/
def errUpdateA (msg : String) : StateUpdate :=
  { error := some (some msg), agent1Output := some none }

/-- The update returned by `beveragePairingNode`'s `catch` block. -/
def errUpdateB (msg : String) : StateUpdate :=
  { error := some (some msg), agent2Output := some none }

/-- `error?.message || '菜品推荐失败，请检查输入参数和 LLM 配置'`. -/
def errorMessageA (m : String) : String :=
  jsOrStr m ("菜品推荐失败，请检查输入参数和 LLM 配置")

/-- `error?.message || '酒品搭配失败，请检查输入参数和 LLM 配置'`. -/
def errorMessageB (m : String) : String :=
  jsOrStr m ("酒品搭配失败，请检查输入参数和 LLM 配置")

/-- `dishRecommenderNode` (`foodPairingGraph.ts` lines 278-341). The
returned flag records whether the generation provider was invoked (it
always is: nothing before the provider call can throw). Failures inside
the `try` are converted by the `catch` into `{error, agent1Output: null}`. -/
def dishRecommenderNode (env : Env) (s : PipelineState) : StateUpdate × Bool :=
  match env.provA with
  | Except.error m => (errUpdateA (errorMessageA m), true)
  | Except.ok copt =>
    match copt with
    | none => (errUpdateA ("LLM 返回内容为空"), true)
    | some c =>
      if c = "" then (errUpdateA ("LLM 返回内容为空"), true)
      else
        let dishes :=
          parseDishRecommendations env.uuids c (jsOrOptStr s.userInput.cuisine ("通用"))
        if dishes.isEmpty then (errUpdateA ("未能生成有效的菜品推荐"), true)
        else
          ({ agent1Output := some (some dishes)
             metadata := some
               { timestamp := s.metadata.timestamp
                 executionTime := some ((s.metadata.executionTime.getD 0) + env.elapsedA)
                 model := some env.model } }, true)

/-- `beveragePairingNode` (`foodPairingGraph.ts` lines 347-413). The
flag records whether the provider was invoked: with missing or empty
prior dishes the node throws before the provider call. -/
def beveragePairingNode (env : Env) (s : PipelineState) : StateUpdate × Bool :=
  match s.agent1Output with
  | none => (errUpdateB ("缺少菜品推荐数据，无法进行酒品搭配"), false)
  | some dishes =>
    if dishes.isEmpty then (errUpdateB ("缺少菜品推荐数据，无法进行酒品搭配"), false)
    else
      match env.provB with
      | Except.error m => (errUpdateB (errorMessageB m), true)
      | Except.ok copt =>
        match copt with
        | none => (errUpdateB ("LLM 返回内容为空"), true)
        | some c =>
          if c = "" then (errUpdateB ("LLM 返回内容为空"), true)
          else
            ({ agent2Output :=
                 some (some (parseBeveragePairing env.uuids env.now env.model c dishes))
               metadata := some
                 { timestamp := s.metadata.timestamp
                   executionTime := some ((s.metadata.executionTime.getD 0) + env.elapsedB)
                   model := some env.model } }, true)

/-- LangGraph's terminal marker `END`. -/
def END : String := "__end__"

/-- JS truthiness of the nullable `error` channel. -/
def optStrTruthy (o : Option String) : Bool :=
  match o with
  | some s => !(s = "")
  | none => false

/-- `shouldContinueToBeveragePairing` (`foodPairingGraph.ts` lines
19-37): terminal when `error` is truthy or the dish list is missing or
empty, else route to the pairing node. (The runtime's `!Array.isArray`
case cannot arise in the typed model: `agent1Output` is an array
whenever it is set.) -/
def shouldContinueToBeveragePairing (s : PipelineState) : String :=
  if optStrTruthy s.error then END
  else
    match s.agent1Output with
    | none => END
    | some dishes => if dishes.isEmpty then END else ("beverage_pairing")

/-- `shouldFinishPairing` (`foodPairingGraph.ts` lines 46-63): every
branch returns `END`. -/
def shouldFinishPairing (_ : PipelineState) : String := END

/-- Execution of the compiled graph built by `buildFoodPairingGraph`
(entry point `dish_recommender`; conditional edge to `beverage_pairing`
or `END` via `shouldContinueToBeveragePairing`; conditional edge to
`END` via `shouldFinishPairing`). Returns the final state, the list of
executed nodes, and the number of generation-provider calls. -/
def runGraph (env : Env) (s0 : PipelineState) :
    PipelineState × List String × Nat :=
  let (u1, call1) := dishRecommenderNode env s0
  let s1 := mergeState s0 u1
  if shouldContinueToBeveragePairing s1 = "beverage_pairing" then
    let (u2, call2) := beveragePairingNode env s1
    let s2 := mergeState s1 u2
    (s2, ["dish_recommender", "beverage_pairing"],
      (cond call1 1 0) + (cond call2 1 0))
  else
    (s1, ["dish_recommender"], cond call1 1 0)

/-- The caller-facing input of `FoodPairingLangGraphService.execute`. -/
structure ExecInput where
  cuisine : Option String
  foodIngredients : List String
  drinkIngredients : Option (List String)

/-- `createInitialState` (`foodPairingState.ts` lines 214-234). -/
def createInitialState (now : String) (input : ExecInput) : PipelineState :=
  { userInput :=
      { cuisine := input.cuisine
        foodIngredients := input.foodIngredients
        drinkIngredients := input.drinkIngredients.getD [] }
    agent1Output := none
    agent2Output := none
    error := none
    metadata := { timestamp := now, executionTime := none, model := none } }

/-- The message thrown by `validateInput` when `foodIngredients` is
empty: the Zod `min(1)` issue, formatted as `path: message` and wrapped
by `输入验证失败: `. This is the only way the validation schema can
reject a well-typed input. -/
def validationErrorMsg : String :=
  "输入验证失败: foodIngredients: 至少需要一个食品原料"

/-- Observable outcome of one `execute` call: the returned value or the
thrown error message, plus how many provider calls and which graph
nodes ran. -/
structure ExecTrace where
  result : Except String CompletePairingRecommendation
  providerCalls : Nat
  nodesRun : List String

/-- `FoodPairingLangGraphService.execute` (service file lines 704-796):
validate the input (throwing before the graph is ever invoked), run the
compiled graph, re-validate the final state (an identity on every state
this model produces), then: a truthy recorded `error` is re-thrown; a
present `agent2Output` is returned; otherwise a non-empty `agent1Output`
yields the partial dishes-only result and anything else throws. The
outer `catch` re-throws with the same message. -/
def executeService (env : Env) (input : ExecInput) : ExecTrace :=
  if input.foodIngredients.isEmpty then
    { result := Except.error validationErrorMsg, providerCalls := 0, nodesRun := [] }
  else
    let G := runGraph env (createInitialState env.now input)
    let fin := G.1
    let res : Except String CompletePairingRecommendation :=
      if optStrTruthy fin.error then Except.error (fin.error.getD (""))
      else
        match fin.agent2Output with
        | some p => Except.ok p
        | none =>
          match fin.agent1Output with
          | some ds =>
            if ds.isEmpty then Except.error ("未能生成有效的推荐结果")
            else
              Except.ok
                { dishes := ds
                  beverages := []
                  pairingReasons := []
                  overallSuggestion :=
                    Json.str ("抱歉，未能生成完整的酒品搭配推荐，但为您推荐了以下菜品。")
                  metadata :=
                    { timestamp := env.now
                      model := none
                      dishCount := ds.length
                      beverageCount := 0
                      pairingCount := 0 } }
          | none => Except.error ("未能生成有效的推荐结果")
    { result := res, providerCalls := G.2.2, nodesRun := G.2.1 }


/-- Sentence-ending punctuation of the chunker's split regex
`/[.!?。！？]\s*/` (`simplePDFService`-style `PDFService.splitTextIntoChunks`). -/
def isSentencePunct (c : Char) : Bool :=
  c = '.' || c = '!' || c = '?' || c = '。' || c = '！' || c = '？'

/-- Split on sentence punctuation followed by a greedy whitespace run,
accumulating the current sentence in reverse (JS
`text.split(/[.!?。！？]\s*/)`, including empty parts). Fuel-indexed:
every step consumes at least one character, so `length + 1` fuel always
suffices and the fuel-exhaustion branch is unreachable from
`splitSentences`. -/
def splitSentencesAux : Nat → List Char → List Char → List (List Char)
  | 0, _, acc => [acc.reverse]
  | _ + 1, [], acc => [acc.reverse]
  | fuel + 1, c :: rest, acc =>
    if isSentencePunct c then
      acc.reverse :: splitSentencesAux fuel (rest.dropWhile isJsWsChar) []
    else splitSentencesAux fuel rest (c :: acc)

/-- The sentence list of `splitTextIntoChunks`. -/
def splitSentences (cs : List Char) : List (List Char) :=
  splitSentencesAux (cs.length + 1) cs []

/-- A text chunk produced by `PDFService.splitTextIntoChunks` (recipe
metadata extraction happens in a later pass and is not modelled). -/
structure TextChunk where
  id : String
  content : String
  pageNumber : Nat
  chunkIndex : Nat
  deriving DecidableEq

/-- Loop state of `splitTextIntoChunks`. -/
structure ChunkAcc where
  chunks : List TextChunk
  current : List Char
  chunkIndex : Nat
  pageNumber : Nat

/-- JS `s.slice(-n)`: the last `n` characters (the whole string when it
is shorter than `n`). -/
def takeRightL (n : Nat) (cs : List Char) : List Char :=
  cs.drop (cs.length - n)

/-- Chunk id `chunk_${Date.now()}_${index}`; the clock value is a
parameter. -/
def mkChunkId (nowMs idx : Nat) : String :=
  "chunk_" ++ toString nowMs ++ "_" ++ toString idx

/-- One loop iteration of `splitTextIntoChunks` over a sentence
(`part_002` lines 115-141): skip blank sentences; bump the page number
on form-feed or triple-newline; flush the current chunk, carrying
`slice(-overlap)` plus a joining space, when adding the sentence would
exceed `chunkSize` and the current chunk is non-empty. -/
def stepSentence (nowMs chunkSize overlap : Nat) (st : ChunkAcc)
    (sRaw : List Char) : ChunkAcc :=
  let s := jsTrimL sRaw
  if s.isEmpty then st
  else
    let pg :=
      if listHasInfix s ['\x0c'] || listHasInfix s ['\n', '\n', '\n'] then
        st.pageNumber + 1
      else st.pageNumber
    if chunkSize < st.current.length + s.length ∧ 0 < st.current.length then
      let c : TextChunk :=
        { id := mkChunkId nowMs st.chunkIndex
          content := String.mk (jsTrimL st.current)
          pageNumber := pg
          chunkIndex := st.chunkIndex }
      { chunks := st.chunks ++ [c]
        current := takeRightL overlap st.current ++ ' ' :: s
        chunkIndex := st.chunkIndex + 1
        pageNumber := pg }
    else
      { st with
        current := st.current ++ (if st.current.isEmpty then s else ' ' :: s)
        pageNumber := pg }

/-- `PDFService.splitTextIntoChunks` (`part_002` lines 107-155), with
the service's configured `chunkSize = 800` and `chunkOverlap = 150`
passed as parameters. -/
def splitTextIntoChunks (nowMs chunkSize overlap : Nat) (text : String) :
    List TextChunk :=
  let final :=
    (splitSentences text.toList).foldl (stepSentence nowMs chunkSize overlap)
      { chunks := [], current := [], chunkIndex := 0, pageNumber := 1 }
  if (jsTrimL final.current).isEmpty then final.chunks
  else
    final.chunks ++
      [{ id := mkChunkId nowMs final.chunkIndex
         content := String.mk (jsTrimL final.current)
         pageNumber := final.pageNumber
         chunkIndex := final.chunkIndex }]

/-- Retry loop of `ragService.createVectorStore` (lines 309-339): up to
3 attempts of `vectorStore.addDocuments(chunks)` against the same
store, then a thrown error. An attempt oracle value `some m` models the
attempt throwing with message `m`; a failed `MemoryVectorStore.addDocuments`
embeds the whole batch before mutating the store, so a failed attempt
leaves the store unchanged and a successful one appends every chunk. -/
def createVectorStoreAux {α : Type} (attempt : Nat → Option String)
    (chunks store : List α) :
    Nat → Nat → Option String → Except String (List α)
  | 0, _, lastErr =>
    Except.error
      ("Failed to create vector store after 3 attempts. Last error: " ++
        lastErr.getD ("undefined"))
  | retries + 1, attemptNo, _ =>
    match attempt attemptNo with
    | none => Except.ok (store ++ chunks)
    | some m =>
      createVectorStoreAux attempt chunks store retries (attemptNo + 1) (some m)

/-- `ragService.createVectorStore`: fresh `MemoryVectorStore`, then the
retry loop starting at attempt 1 with 3 retries. -/
def createVectorStore {α : Type} (attempt : Nat → Option String)
    (chunks : List α) : Except String (List α) :=
  createVectorStoreAux attempt chunks [] 3 1 none

/-- `ragService.runRagPipeline` (lines 346-370), restricted to its
effect on the module-level `memoryStore`: with no documents it exits
early; otherwise `memoryStore` is assigned only when `createVectorStore`
resolves, and the surrounding `catch` turns its thrown error into a
`{success: false}` result, leaving `memoryStore` at its prior value. -/
def runRagPipelineModel {α : Type} (prev : Option (List α)) (docsCount : Nat)
    (chunks : List α) (attempt : Nat → Option String) :
    Option (List α) × Bool :=
  if docsCount = 0 then (prev, true)
  else
    match createVectorStore attempt chunks with
    | Except.ok st => (some st, true)
    | Except.error _ => (prev, false)


/-- UUID supply used in concrete witnesses: injective and never empty. -/
def uuW : Nat → String := fun n => "uuid-" ++ toString n

/-- Concrete valid input for witnesses. -/
def inputW : ExecInput :=
  { cuisine := none, foodIngredients := ["whiskey", "lemon"], drinkIngredients := none }

/-- Concrete input with an empty primary-item list. -/
def inputEmptyW : ExecInput :=
  { cuisine := none, foodIngredients := [], drinkIngredients := none }

/-- Environment whose stage-A provider call throws with message `boom`. -/
def envBoomW : Env :=
  { uuids := uuW, model := "gpt-4", now := "2026-10-11T00:00:00.000Z",
    elapsedA := 5, elapsedB := 7,
    provA := Except.error ("boom"), provB := Except.ok (some ("x")) }

/-- Environment whose stage-A provider returns an empty JSON array, so
recovery yields zero dish records. -/
def envNoDishW : Env :=
  { uuids := uuW, model := "gpt-4", now := "2026-10-11T00:00:00.000Z",
    elapsedA := 5, elapsedB := 7,
    provA := Except.ok (some ("[]")), provB := Except.ok (some ("x")) }

/-- A concrete normalized dish record. -/
def dishW : Dish :=
  { id := Json.str ("d1"), name := Json.str ("宫保鸡丁"),
    description := Json.str (""), cuisine := Json.str ("川菜"),
    requiredIngredients := [], cookingTime := Json.num 30,
    difficulty := Json.num 3, steps := [], source := Json.undef, tags := [] }

/-- A concrete state in which the recommender stage already produced one
dish. -/
def stateDishW : PipelineState :=
  { userInput := { cuisine := none, foodIngredients := ["x"], drinkIngredients := [] },
    agent1Output := some [dishW], agent2Output := none, error := none,
    metadata := { timestamp := "t", executionTime := none, model := none } }

/-- Environment whose stage-B provider returns the empty string. -/
def envBevEmptyW : Env :=
  { uuids := uuW, model := "m", now := "t", elapsedA := 0, elapsedB := 0,
    provA := Except.ok (some ("x")), provB := Except.ok (some ("")) }

/-- Environment whose stage-B provider returns JSON-free prose. -/
def envBevProseW : Env :=
  { uuids := uuW, model := "m", now := "t", elapsedA := 0, elapsedB := 0,
    provA := Except.ok (some ("x")), provB := Except.ok (some ("hello")) }

/-- Length of `dropWhile` never exceeds the input's length. -/
theorem dropWhile_length_le {α : Type} (p : α → Bool) (l : List α) :
    (l.dropWhile p).length ≤ l.length := by
  induction l with
  | nil => simp [List.dropWhile]
  | cons a l ih =>
    simp only [List.dropWhile]
    by_cases hp : p a
    · simp only [hp]
      exact le_trans ih (Nat.le_succ _)
    · simp [hp]

/-- Trimming never lengthens a character list. -/
theorem jsTrimL_length_le (cs : List Char) : (jsTrimL cs).length ≤ cs.length := by
  unfold jsTrimL
  calc ((cs.dropWhile isJsWsChar).reverse.dropWhile isJsWsChar).reverse.length
      = ((cs.dropWhile isJsWsChar).reverse.dropWhile isJsWsChar).length := by
        simp
    _ ≤ (cs.dropWhile isJsWsChar).reverse.length := dropWhile_length_le _ _
    _ = (cs.dropWhile isJsWsChar).length := by simp
    _ ≤ cs.length := dropWhile_length_le _ _

/-- `a || b` on strings is non-empty when the fallback is non-empty. -/
theorem jsOrStr_ne_empty (a b : String) (hb : b ≠ "") : jsOrStr a b ≠ "" := by
  unfold jsOrStr
  by_cases h : a = "" <;> simp [h, hb]

/-- `dropWhile` over an all-satisfying prefix skips the whole prefix. -/
theorem dropWhile_append_of_all {α : Type} (p : α → Bool) (l1 l2 : List α)
    (h : ∀ c ∈ l1, p c = true) : (l1 ++ l2).dropWhile p = l2.dropWhile p := by
  induction l1 with
  | nil => simp
  | cons a l ih =>
    have ha : p a = true := h a (List.mem_cons_self a l)
    simp only [List.cons_append, List.dropWhile, ha]
    exact ih (fun c hc => h c (List.mem_cons_of_mem a hc))

/-- Case analysis of `dishRecommenderNode`'s update: either the `catch`
produced an error update with a non-empty message, or the stage
succeeded with a non-empty dish list and no error channel update. -/
theorem dishNode_shape (env : Env) (s : PipelineState) :
    (∃ m, (dishRecommenderNode env s).1 = errUpdateA m ∧ m ≠ "") ∨
    (∃ ds : List Dish, ds ≠ [] ∧ (dishRecommenderNode env s).1.error = none ∧
      (dishRecommenderNode env s).1.agent1Output = some (some ds)) := by
  rcases hA : env.provA with m | copt
  · left
    refine ⟨errorMessageA m, ?_, jsOrStr_ne_empty _ _ (by decide)⟩
    simp [dishRecommenderNode, hA]
  · rcases copt with _ | c
    · left
      exact ⟨"LLM 返回内容为空", by simp [dishRecommenderNode, hA], by decide⟩
    · by_cases hc : c = ""
      · left
        exact ⟨"LLM 返回内容为空", by simp [dishRecommenderNode, hA, hc], by decide⟩
      · by_cases hd :
          (parseDishRecommendations env.uuids c (jsOrOptStr s.userInput.cuisine ("通用"))) = []
        · left
          refine ⟨"未能生成有效的菜品推荐", ?_, by decide⟩
          simp [dishRecommenderNode, hA, hc, hd]
        · right
          refine ⟨parseDishRecommendations env.uuids c (jsOrOptStr s.userInput.cuisine ("通用")),
            hd, ?_, ?_⟩ <;>
            simp [dishRecommenderNode, hA, hc, hd, StateUpdate.error, StateUpdate.agent1Output]

/-- Case analysis of `beveragePairingNode`'s update: either an error
update with a non-empty message, or a successful pairing result. -/
theorem bevNode_shape (env : Env) (s : PipelineState) :
    (∃ m, (beveragePairingNode env s).1 = errUpdateB m ∧ m ≠ "") ∨
    ((beveragePairingNode env s).1.error = none ∧
      ∃ p, (beveragePairingNode env s).1.agent2Output = some (some p)) := by
  rcases hds : s.agent1Output with _ | ds
  · left
    exact ⟨"缺少菜品推荐数据，无法进行酒品搭配", by simp [beveragePairingNode, hds], by decide⟩
  · by_cases hde : ds = []
    · left
      refine ⟨"缺少菜品推荐数据，无法进行酒品搭配", ?_, by decide⟩
      simp [beveragePairingNode, hds, hde]
    · rcases hB : env.provB with m | copt
      · left
        refine ⟨errorMessageB m, ?_, jsOrStr_ne_empty _ _ (by decide)⟩
        simp [beveragePairingNode, hds, hde, hB]
      · rcases copt with _ | c
        · left
          exact ⟨"LLM 返回内容为空", by simp [beveragePairingNode, hds, hde, hB], by decide⟩
        · by_cases hc : c = ""
          · left
            exact ⟨"LLM 返回内容为空", by simp [beveragePairingNode, hds, hde, hB, hc], by decide⟩
          · right
            constructor
            · simp [beveragePairingNode, hds, hde, hB, hc, StateUpdate.error]
            · refine ⟨parseBeveragePairing env.uuids env.now env.model c ds, ?_⟩
              simp [beveragePairingNode, hds, hde, hB, hc]

/-- The error channel after a merge. -/
theorem mergeState_error (s : PipelineState) (u : StateUpdate) :
    (mergeState s u).error = u.error.getD s.error := rfl

/-- The `agent1Output` channel after a merge. -/
theorem mergeState_agent1 (s : PipelineState) (u : StateUpdate) :
    (mergeState s u).agent1Output = u.agent1Output.getD s.agent1Output := rfl

/-- The `agent2Output` channel after a merge. -/
theorem mergeState_agent2 (s : PipelineState) (u : StateUpdate) :
    (mergeState s u).agent2Output = u.agent2Output.getD s.agent2Output := rfl

/-- Any error recorded in the final state of a graph run that started
with a clear error channel is a non-empty message. -/
theorem runGraph_error_ne_empty (env : Env) (s0 : PipelineState)
    (h0 : s0.error = none) (m : String)
    (hfin : (runGraph env s0).1.error = some m) : m ≠ "" := by
  unfold runGraph at hfin
  have hshape := dishNode_shape env s0
  rcases hDA : dishRecommenderNode env s0 with ⟨u1, b1⟩
  rw [hDA] at hfin hshape
  dsimp only at hfin hshape
  rcases hshape with ⟨m1, hu, hne⟩ | ⟨ds, hds, herr, hout⟩
  · subst hu
    have hroute : shouldContinueToBeveragePairing (mergeState s0 (errUpdateA m1)) = END := by
      have htr : optStrTruthy (mergeState s0 (errUpdateA m1)).error = true := by
        simp [mergeState_error, errUpdateA, optStrTruthy, hne]
      simp [shouldContinueToBeveragePairing, htr]
    have hnr : ¬ (shouldContinueToBeveragePairing (mergeState s0 (errUpdateA m1)) =
        "beverage_pairing") := by
      rw [hroute]
      decide
    rw [if_neg hnr] at hfin
    dsimp only at hfin
    rw [mergeState_error] at hfin
    simp only [errUpdateA, Option.getD_some] at hfin
    cases hfin
    exact hne
  · have hs1 : (mergeState s0 u1).error = none := by
      rw [mergeState_error, herr]
      exact h0
    have hroute : shouldContinueToBeveragePairing (mergeState s0 u1) = "beverage_pairing" := by
      simp [shouldContinueToBeveragePairing, optStrTruthy, hs1, mergeState_agent1, hout, hds]
    rw [if_pos hroute] at hfin
    have hshape2 := bevNode_shape env (mergeState s0 u1)
    rcases hDB : beveragePairingNode env (mergeState s0 u1) with ⟨u2, b2⟩
    rw [hDB] at hfin hshape2
    dsimp only at hfin hshape2
    rcases hshape2 with ⟨m2, hu2, hne2⟩ | ⟨herr2, -⟩
    · subst hu2
      rw [mergeState_error] at hfin
      simp only [errUpdateB, Option.getD_some] at hfin
      cases hfin
      exact hne2
    · rw [mergeState_error, herr2] at hfin
      simp [hs1] at hfin

/-- C3: for every input whose `foodIngredients` list is empty, `execute`
throws the input-validation error before the graph is invoked: no
provider call occurs and no stage function runs. -/
theorem c3_empty_input_rejected (env : Env) (input : ExecInput)
    (h : input.foodIngredients = []) :
    executeService env input =
      { result := Except.error validationErrorMsg, providerCalls := 0, nodesRun := [] } := by
  simp [executeService, h]

/-- Witness for C3 at a concrete empty input. -/
theorem c3_empty_input_rejected_witness :
    inputEmptyW.foodIngredients = [] ∧
    executeService envBoomW inputEmptyW =
      { result := Except.error validationErrorMsg, providerCalls := 0, nodesRun := [] } :=
  ⟨rfl, c3_empty_input_rejected envBoomW inputEmptyW rfl⟩

/-- C1 counterexample: with a failing stage-A provider call, the compiled
graph does return a final state carrying the recorded error, but
`FoodPairingLangGraphService.execute` then throws that error instead of
returning the state, contradicting the claim that the invocation
returns the final state rather than throwing. -/
theorem c1_counterexample :
    (runGraph envBoomW (createInitialState envBoomW.now inputW)).1.error = some ("boom") ∧
    (executeService envBoomW inputW).result = Except.error ("boom") :=
  ⟨rfl, rfl⟩

/-- C1 amended: when a stage function records a failure, the compiled
graph run does finish with the error recorded in the returned state (it
is not thrown at graph level), but `execute` re-throws the recorded
message to its caller instead of returning the state. -/
theorem c1_amended_execute_rethrows (env : Env) (input : ExecInput) (m : String)
    (hne : input.foodIngredients ≠ [])
    (hfin : (runGraph env (createInitialState env.now input)).1.error = some m) :
    m ≠ "" ∧ (executeService env input).result = Except.error m := by
  have hmne : m ≠ "" :=
    runGraph_error_ne_empty env (createInitialState env.now input) rfl m hfin
  refine ⟨hmne, ?_⟩
  have hne2 : input.foodIngredients.isEmpty = false := by
    cases h : input.foodIngredients
    · exact absurd h hne
    · rfl
  simp only [executeService, hne2, Bool.false_eq_true, if_false, if_neg]
  simp [hfin, optStrTruthy, hmne]

/-- Witness for C1's amended theorem at the concrete failing provider. -/
theorem c1_amended_execute_rethrows_witness :
    inputW.foodIngredients ≠ [] ∧
    (runGraph envBoomW (createInitialState envBoomW.now inputW)).1.error = some ("boom") ∧
    (executeService envBoomW inputW).result = Except.error ("boom") :=
  ⟨by decide, rfl, (c1_amended_execute_rethrows envBoomW inputW ("boom") (by decide) rfl).2⟩


/-- C2: for every state reached after the recommender stage (initial
state merged with the recommender node's update), the routing function
returns `END` iff the error channel is set or the dish list is absent
or empty — and whenever the dish list is absent or empty, the pairing
node is not among the executed nodes of the graph run. -/
theorem c2_routing (env : Env) (input : ExecInput) (s1 : PipelineState)
    (h1 : s1 = mergeState (createInitialState env.now input)
      (dishRecommenderNode env (createInitialState env.now input)).1) :
    (shouldContinueToBeveragePairing s1 = END ↔
      (s1.error ≠ none ∨ s1.agent1Output = none ∨ s1.agent1Output = some [])) ∧
    ((s1.agent1Output = none ∨ s1.agent1Output = some []) →
      (runGraph env (createInitialState env.now input)).2.1 = ["dish_recommender"]) := by
  have hshape := dishNode_shape env (createInitialState env.now input)
  rcases hDA : dishRecommenderNode env (createInitialState env.now input) with ⟨u1, b1⟩
  rw [hDA] at hshape h1
  dsimp only at hshape h1
  rcases hshape with ⟨m1, hu, hne⟩ | ⟨ds, hds, herr, hout⟩
  · subst hu
    have herr1 : s1.error = some m1 := by
      rw [h1, mergeState_error]
      simp [errUpdateA]
    have hag1 : s1.agent1Output = none := by
      rw [h1, mergeState_agent1]
      simp [errUpdateA]
    have hroute : shouldContinueToBeveragePairing s1 = END := by
      simp [shouldContinueToBeveragePairing, optStrTruthy, herr1, hne]
    constructor
    · rw [hroute]
      simp [herr1]
    · intro _
      unfold runGraph
      rw [hDA]
      dsimp only
      have hnr : ¬ (shouldContinueToBeveragePairing
          (mergeState (createInitialState env.now input) (errUpdateA m1)) =
            "beverage_pairing") := by
        rw [← h1, hroute]
        decide
      rw [if_neg hnr]
  · have herr1 : s1.error = none := by
      rw [h1, mergeState_error, herr]
      rfl
    have hag1 : s1.agent1Output = some ds := by
      rw [h1, mergeState_agent1, hout]
      rfl
    have hroute : shouldContinueToBeveragePairing s1 = "beverage_pairing" := by
      simp [shouldContinueToBeveragePairing, optStrTruthy, herr1, hag1, hds]
    constructor
    · rw [hroute]
      constructor
      · intro h
        exact absurd h (by decide)
      · intro h
        rcases h with h | h | h
        · exact absurd herr1 h
        · rw [hag1] at h
          simp at h
        · rw [hag1] at h
          exact absurd (Option.some.inj h) hds
    · intro h
      rcases h with h | h
      · rw [hag1] at h
        simp at h
      · rw [hag1] at h
        exact absurd (Option.some.inj h) hds

/-- Witness for C2: with a provider that returns an empty JSON array the
recommender stage records a failure, the post-stage dish list is absent,
and the pairing node is skipped. -/
theorem c2_routing_witness :
    (mergeState (createInitialState envNoDishW.now inputW)
      (dishRecommenderNode envNoDishW (createInitialState envNoDishW.now inputW)).1).agent1Output
        = none ∧
    (runGraph envNoDishW (createInitialState envNoDishW.now inputW)).2.1 =
      ["dish_recommender"] :=
  ⟨rfl, (c2_routing envNoDishW inputW _ rfl).2 (Or.inl rfl)⟩

/-- C4: an insertion that fails on attempts 1 and 2 and succeeds on
attempt 3 yields exactly the records of a first-attempt success (failed
attempts add nothing, since `addDocuments` embeds the batch before
mutating the store); when all 3 attempts fail, `createVectorStore`
throws to its caller and `runRagPipeline` leaves `memoryStore` at its
prior value. -/
theorem c4_retry_semantics {α : Type} (chunks : List α) (prev : Option (List α))
    (docsCount : Nat) (attempt : Nat → Option String) :
    ((attempt 1).isSome → (attempt 2).isSome → attempt 3 = none →
      createVectorStore attempt chunks = Except.ok chunks ∧
      createVectorStore (fun _ => none) chunks = Except.ok chunks) ∧
    ((∀ n, (attempt n).isSome) → docsCount ≠ 0 →
      (∃ msg, createVectorStore attempt chunks = Except.error msg) ∧
      runRagPipelineModel prev docsCount chunks attempt = (prev, false)) := by
  constructor
  · intro h1 h2 h3
    rcases ha1 : attempt 1 with _ | m1
    · rw [ha1] at h1
      simp at h1
    rcases ha2 : attempt 2 with _ | m2
    · rw [ha2] at h2
      simp at h2
    constructor
    · simp [createVectorStore, createVectorStoreAux, ha1, ha2, h3]
    · simp [createVectorStore, createVectorStoreAux]
  · intro hall hd
    rcases ha1 : attempt 1 with _ | m1
    · exact absurd (hall 1) (by rw [ha1]; simp)
    rcases ha2 : attempt 2 with _ | m2
    · exact absurd (hall 2) (by rw [ha2]; simp)
    rcases ha3 : attempt 3 with _ | m3
    · exact absurd (hall 3) (by rw [ha3]; simp)
    have herr : createVectorStore attempt chunks =
        Except.error ("Failed to create vector store after 3 attempts. Last error: " ++ m3) := by
      simp [createVectorStore, createVectorStoreAux, ha1, ha2, ha3]
    refine ⟨⟨_, herr⟩, ?_⟩
    simp [runRagPipelineModel, hd, herr]

/-- Witness for C4 with concrete attempt oracles, chunks, and a prior
store. -/
theorem c4_retry_semantics_witness :
    ((fun n => if n = 3 then none else some ("e")) 1).isSome = true ∧
    createVectorStore (fun n => if n = 3 then none else some ("e")) ["c1", "c2"] =
      Except.ok ["c1", "c2"] ∧
    (∃ msg, createVectorStore (fun _ => some ("e")) (["c1", "c2"] : List String) =
      Except.error msg) ∧
    runRagPipelineModel (some ["old"]) 2 ["c1", "c2"] (fun _ => some ("e")) =
      (some ["old"], false) := by
  refine ⟨by decide, ?_, ?_, ?_⟩
  · exact ((c4_retry_semantics ["c1", "c2"] (some ["old"]) 2
      (fun n => if n = 3 then none else some ("e"))).1 (by decide) (by decide) (by decide)).1
  · exact ((c4_retry_semantics ["c1", "c2"] (some ["old"]) 2
      (fun _ => some ("e"))).2 (fun n => by decide) (by decide)).1
  · exact ((c4_retry_semantics ["c1", "c2"] (some ["old"]) 2
      (fun _ => some ("e"))).2 (fun n => by decide) (by decide)).2


/-- C5: the structured-output recovery functions convert every internal
exception into a returned collection: a throwing `try` body of
`parseDishRecommendations` yields `[]`, a non-throwing body's value is
returned as-is, a throwing body of `LLMService.parseRecommendations` is
answered by the (total) `extractFromText` fallback, and nullish content
yields `[]` — so for every input text the functions return a list and
never propagate an exception, with the empty list as the worst case. -/
theorem c5_recovery_never_throws (uuids : Nat → String) (dc content : String) :
    (tryParseDishes uuids content dc = Except.error () →
      parseDishRecommendations uuids content dc = []) ∧
    (∀ l ctr, tryParseDishes uuids content dc = Except.ok (l, ctr) →
      parseDishRecommendations uuids content dc = l) ∧
    (parseRecommendationsBody content = Except.error () →
      parseRecommendations (some content) = extractFromText content) ∧
    parseRecommendations none = [] := by
  refine ⟨?_, ?_, ?_, rfl⟩
  · intro h
    simp [parseDishRecommendations, h]
  · intro l ctr h
    simp [parseDishRecommendations, h]
  · intro h
    have hcne : content ≠ "" := by
      intro he
      rw [he] at h
      have hok : parseRecommendationsBody ("") = Except.ok (extractFromText ("")) := rfl
      rw [hok] at h
      simp at h
    simp [parseRecommendations, hcne, h]

/-- Witness for C5 at a text whose bracket block is not valid JSON. -/
theorem c5_recovery_never_throws_witness :
    tryParseDishes uuW ("[oops]") ("通用") = Except.error () ∧
    parseDishRecommendations uuW ("[oops]") ("通用") = [] ∧
    parseRecommendations (some ("[oops]")) = extractFromText ("[oops]") :=
  ⟨rfl, (c5_recovery_never_throws uuW ("通用") ("[oops]")).1 rfl,
    (c5_recovery_never_throws uuW ("通用") ("[oops]")).2.2.1 rfl⟩

/-- A successful `buildPairing` passes the input dishes through and
counts them in the metadata. -/
theorem buildPairing_ok_frame (uuids : Nat → String) (now model : String)
    (parsed : Json) (dishes : List Dish) (res : CompletePairingRecommendation)
    (h : buildPairing uuids now model parsed dishes = Except.ok res) :
    res.dishes = dishes ∧ res.metadata.dishCount = dishes.length := by
  unfold buildPairing at h
  split at h
  · exact absurd h (by simp)
  · split at h
    · exact absurd h (by simp)
    · cases h
      exact ⟨rfl, rfl⟩

/-- C10: for every input dish list and every provider output text,
`parseBeveragePairing` returns the input dishes unchanged and reports
their count in `metadata.dishCount`, in both the parse-success branch
and the fallback branch. -/
theorem c10_dishes_frame (uuids : Nat → String) (now model content : String)
    (dishes : List Dish) :
    (parseBeveragePairing uuids now model content dishes).dishes = dishes ∧
    (parseBeveragePairing uuids now model content dishes).metadata.dishCount =
      dishes.length := by
  unfold parseBeveragePairing
  cases hE : extractBlock '{' '}' content with
  | none => exact ⟨rfl, rfl⟩
  | some block =>
    dsimp only
    cases hP : parseJson block with
    | none => exact ⟨rfl, rfl⟩
    | some parsed =>
      dsimp only
      cases hB : buildPairing uuids now model parsed dishes with
      | error e => exact ⟨rfl, rfl⟩
      | ok res => exact buildPairing_ok_frame uuids now model parsed dishes res hB

/-- C8 counterexample: with a non-empty prior dish list and the provider
output text `""`, the pairing node records an error that is caused only
by the shape of the provider's output, contradicting the claim that it
never records an error for any provider output text. -/
theorem c8_counterexample :
    stateDishW.agent1Output = some [dishW] ∧
    (beveragePairingNode envBevEmptyW stateDishW).1.error =
      some (some ("LLM 返回内容为空")) ∧
    (beveragePairingNode envBevEmptyW stateDishW).1.agent2Output = some none :=
  ⟨rfl, rfl, rfl⟩

/-- C8 amended: for every non-empty prior dish list and every non-empty
provider output text, the pairing node records no error and returns a
result object; malformed or JSON-free output degrades to a result with
empty beverage and pairing-reason collections. -/
theorem c8_amended_degrades (env : Env) (s : PipelineState) (ds : List Dish) (c : String)
    (hds : s.agent1Output = some ds) (hne : ds ≠ [])
    (hB : env.provB = Except.ok (some c)) (hc : c ≠ "") :
    (beveragePairingNode env s).1.error = none ∧
    (beveragePairingNode env s).1.agent2Output =
      some (some (parseBeveragePairing env.uuids env.now env.model c ds)) ∧
    ((extractBlock '{' '}' c = none ∨
        ∃ blk, extractBlock '{' '}' c = some blk ∧ parseJson blk = none) →
      (parseBeveragePairing env.uuids env.now env.model c ds).beverages = [] ∧
      (parseBeveragePairing env.uuids env.now env.model c ds).pairingReasons = []) := by
  have hie : ds.isEmpty = false := by
    cases ds
    · exact absurd rfl hne
    · rfl
  refine ⟨?_, ?_, ?_⟩
  · simp [beveragePairingNode, hds, hie, hB, hc, StateUpdate.error]
  · simp [beveragePairingNode, hds, hie, hB, hc]
  · intro h
    rcases h with h | ⟨blk, hblk, hp⟩
    · simp [parseBeveragePairing, h, fallbackPairing]
    · simp [parseBeveragePairing, hblk, hp, fallbackPairing]

/-- Witness for C8's amended theorem: JSON-free prose output yields a
result object with no error and empty collections. -/
theorem c8_amended_degrades_witness :
    (beveragePairingNode envBevProseW stateDishW).1.error = none ∧
    (parseBeveragePairing envBevProseW.uuids envBevProseW.now envBevProseW.model
      ("hello") [dishW]).beverages = [] :=
  ⟨(c8_amended_degrades envBevProseW stateDishW [dishW] ("hello") rfl
      (List.cons_ne_nil dishW []) rfl (by decide)).1,
   ((c8_amended_degrades envBevProseW stateDishW [dishW] ("hello") rfl
      (List.cons_ne_nil dishW []) rfl (by decide)).2.2 (Or.inl rfl)).1⟩


/-- When a bracket-delimited block is embedded in prose whose prefix has
no `[` and whose suffix has no `]`, the greedy regex extraction returns
exactly the block. -/
theorem extractBlockL_embedded (pre a post : List Char)
    (hhead : a.head? = some '[') (hlast : a.getLast? = some ']')
    (hpre : '[' ∉ pre) (hpost : ']' ∉ post) :
    extractBlockL '[' ']' (pre ++ a ++ post) = some a := by
  obtain ⟨atail, rfl⟩ : ∃ t, a = '[' :: t := by
    cases a with
    | nil => simp at hhead
    | cons c t =>
      refine ⟨t, ?_⟩
      simp only [List.head?] at hhead
      rw [Option.some.inj hhead]
  have h1 : ((pre ++ ('[' :: atail)) ++ post).dropWhile (fun c => !(c = '[')) =
      ('[' :: atail) ++ post := by
    rw [List.append_assoc]
    rw [dropWhile_append_of_all _ pre _ (fun c hc => by
      simp only [Bool.not_eq_true']
      exact decide_eq_false (fun hcc => hpre (hcc ▸ hc)))]
    simp [List.dropWhile]
  obtain ⟨rinit, hrev⟩ : ∃ t, ('[' :: atail).reverse = ']' :: t := by
    have hh : ('[' :: atail).reverse.head? = some ']' := by
      rw [List.head?_reverse]
      exact hlast
    cases hx : ('[' :: atail).reverse with
    | nil => rw [hx] at hh; simp at hh
    | cons c t =>
      rw [hx] at hh
      simp only [List.head?] at hh
      exact ⟨t, by rw [Option.some.inj hh]⟩
  have h2 : ((('[' :: atail) ++ post).reverse.dropWhile (fun c => !(c = ']'))) =
      ('[' :: atail).reverse := by
    rw [List.reverse_append]
    rw [dropWhile_append_of_all _ post.reverse _ (fun c hc => by
      simp only [Bool.not_eq_true']
      exact decide_eq_false (fun hcc => hpost (hcc ▸ (List.mem_reverse.mp hc))))]
    rw [hrev]
    simp [List.dropWhile]
  simp only [extractBlockL]
  rw [h1, h2]
  simp

/-- C6 counterexample: the same well-formed JSON array `[{}]` embedded
in the prose pair `(`/`)` versus the prose pair `[`/`` yields one
recovered record in the first case and none in the second, because the
greedy extraction absorbs the prose bracket; so recovery is not
invariant under arbitrary surrounding prose. -/
theorem c6_counterexample :
    (parseDishRecommendations uuW ("([\x7b\x7d])") ("通用")).length = 1 ∧
    (parseDishRecommendations uuW ("[[\x7b\x7d]") ("通用")).length = 0 :=
  ⟨rfl, rfl⟩

/-- C6 amended: for a bracket-delimited array text embedded in prose
whose prefix contains no `[` and whose suffix contains no `]`, recovery
returns identical normalized records for any two such surroundings
(with the same UUID supply, so even the freshly generated ids agree;
with independent supplies the results differ only in those ids). -/
theorem c6_amended_prose_invariance (uuids : Nat → String) (dc : String)
    (a pre1 post1 pre2 post2 : List Char)
    (hhead : a.head? = some '[') (hlast : a.getLast? = some ']')
    (hpre1 : '[' ∉ pre1) (hpost1 : ']' ∉ post1)
    (hpre2 : '[' ∉ pre2) (hpost2 : ']' ∉ post2) :
    parseDishRecommendations uuids (String.mk (pre1 ++ a ++ post1)) dc =
      parseDishRecommendations uuids (String.mk (pre2 ++ a ++ post2)) dc := by
  have e1 : extractBlock '[' ']' (String.mk (pre1 ++ a ++ post1)) = some (String.mk a) := by
    unfold extractBlock
    rw [show (String.mk (pre1 ++ a ++ post1)).toList = pre1 ++ a ++ post1 from rfl]
    rw [extractBlockL_embedded pre1 a post1 hhead hlast hpre1 hpost1]
    rfl
  have e2 : extractBlock '[' ']' (String.mk (pre2 ++ a ++ post2)) = some (String.mk a) := by
    unfold extractBlock
    rw [show (String.mk (pre2 ++ a ++ post2)).toList = pre2 ++ a ++ post2 from rfl]
    rw [extractBlockL_embedded pre2 a post2 hhead hlast hpre2 hpost2]
    rfl
  unfold parseDishRecommendations tryParseDishes
  rw [e1, e2]

/-- Witness for C6's amended theorem at concrete prose surroundings. -/
theorem c6_amended_prose_invariance_witness :
    parseDishRecommendations uuW (String.mk (['a', 'b'] ++ ['[', ']'] ++ ['c'])) ("通用") =
      parseDishRecommendations uuW (String.mk (['d'] ++ ['[', ']'] ++ [])) ("通用") :=
  c6_amended_prose_invariance uuW ("通用") ['[', ']'] ['a', 'b'] ['c'] ['d'] []
    rfl rfl (by decide) (by decide) (by decide) (by decide)


/-- One chunker step preserves the bound 951 on the working buffer and
on every emitted chunk, provided the incoming sentence is at most 800
characters after trimming. -/
theorem stepSentence_inv (nowMs : Nat) (st : ChunkAcc) (sRaw : List Char)
    (hcur : st.current.length ≤ 951)
    (hall : ∀ c ∈ st.chunks, c.content.length ≤ 951)
    (hs : (jsTrimL sRaw).length ≤ 800) :
    (stepSentence nowMs 800 150 st sRaw).current.length ≤ 951 ∧
    (∀ c ∈ (stepSentence nowMs 800 150 st sRaw).chunks, c.content.length ≤ 951) := by
  simp only [stepSentence]
  by_cases he : (jsTrimL sRaw).isEmpty = true
  · rw [if_pos he]
    exact ⟨hcur, hall⟩
  · rw [if_neg he]
    by_cases hcond : 800 < st.current.length + (jsTrimL sRaw).length ∧ 0 < st.current.length
    · rw [if_pos hcond]
      constructor
      · simp only [List.length_append, List.length_cons, takeRightL, List.length_drop]
        omega
      · intro c hc
        rcases List.mem_append.mp hc with hc | hc
        · exact hall c hc
        · have hceq := List.mem_singleton.mp hc
          subst hceq
          show (String.mk (jsTrimL st.current)).length ≤ 951
          exact le_trans (jsTrimL_length_le st.current) hcur
    · rw [if_neg hcond]
      refine ⟨?_, hall⟩
      by_cases hemp : st.current.isEmpty = true
      · have hnil : st.current = [] := List.isEmpty_iff.mp hemp
        simp [hemp, hnil]
        omega
      · have h0 : 0 < st.current.length := by
          cases hx : st.current with
          | nil => rw [hx] at hemp; simp at hemp
          | cons a l => simp [hx]
        have hle : st.current.length + (jsTrimL sRaw).length ≤ 800 := by
          by_contra hgt
          exact hcond ⟨by omega, h0⟩
        rw [if_neg hemp]
        simp only [List.length_append, List.length_cons]
        omega

/-- The fold of chunker steps preserves the bound 951. -/
theorem foldl_step_inv (nowMs : Nat) (sentences : List (List Char)) :
    ∀ st : ChunkAcc, st.current.length ≤ 951 →
      (∀ c ∈ st.chunks, c.content.length ≤ 951) →
      (∀ s ∈ sentences, (jsTrimL s).length ≤ 800) →
      ((sentences.foldl (stepSentence nowMs 800 150) st).current.length ≤ 951 ∧
        ∀ c ∈ (sentences.foldl (stepSentence nowMs 800 150) st).chunks,
          c.content.length ≤ 951) := by
  induction sentences with
  | nil =>
    intro st h1 h2 _
    exact ⟨h1, h2⟩
  | cons s rest ih =>
    intro st h1 h2 hs
    have hstep := stepSentence_inv nowMs st s h1 h2 (hs s (List.mem_cons_self _ _))
    exact ih _ hstep.1 hstep.2 (fun t ht => hs t (List.mem_cons_of_mem _ ht))

set_option maxRecDepth 100000 in
/-- C7 counterexample: the claimed bound `maxSize + overlap = 950` fails;
a punctuation-free 951-character text yields a single 951-character
chunk, and even when every sentence is at most `maxSize` long the bound
950 is still exceeded (a 150-character sentence followed by an
800-character sentence yields a 951-character chunk, because the overlap
is joined with an extra space). -/
theorem c7_counterexample :
    (¬ ∀ c ∈ splitTextIntoChunks 0 800 150 (String.mk (List.replicate 951 'a')),
      c.content.length ≤ 950) ∧
    ((∀ s ∈ splitSentences (List.replicate 150 'a' ++ ['.'] ++ List.replicate 800 'b'),
        (jsTrimL s).length ≤ 800) ∧
      ¬ ∀ c ∈ splitTextIntoChunks 0 800 150
          (String.mk (List.replicate 150 'a' ++ ['.'] ++ List.replicate 800 'b')),
        c.content.length ≤ 950) := by
  refine ⟨by decide, by decide, by decide⟩

/-- C7 amended: every chunk produced by `splitTextIntoChunks` with
`chunkSize = 800` and `overlap = 150` from a text all of whose sentences
are at most 800 characters (trimmed) has content length at most
`951 = chunkSize + overlap + 1` (the extra character is the space that
joins the carried overlap to the next sentence); without the sentence
bound a chunk can be as long as the longest sentence, since the splitter
never cuts inside a sentence. -/
theorem c7_amended_chunk_bound (nowMs : Nat) (text : String)
    (h : ∀ s ∈ splitSentences text.toList, (jsTrimL s).length ≤ 800) :
    ∀ c ∈ splitTextIntoChunks nowMs 800 150 text, c.content.length ≤ 951 := by
  intro c hc
  simp only [splitTextIntoChunks] at hc
  obtain ⟨hcur, hall⟩ := foldl_step_inv nowMs (splitSentences text.toList)
    { chunks := [], current := [], chunkIndex := 0, pageNumber := 1 }
    (by simp) (by simp) h
  split at hc
  · exact hall c hc
  · rcases List.mem_append.mp hc with hc | hc
    · exact hall c hc
    · have hceq := List.mem_singleton.mp hc
      subst hceq
      exact le_trans (jsTrimL_length_le _) hcur

/-- Witness for C7's amended theorem on a small two-sentence text. -/
theorem c7_amended_chunk_bound_witness :
    (∀ s ∈ splitSentences ("ab. cd.").toList, (jsTrimL s).length ≤ 800) ∧
    (∀ c ∈ splitTextIntoChunks 5 800 150 ("ab. cd."), c.content.length ≤ 951) :=
  ⟨by decide, c7_amended_chunk_bound 5 ("ab. cd.") (by decide)⟩


/-- The id and counter of a successfully normalized dish come from
`pickId` on the source element's `id` property. -/
theorem normalizeDish_ok_id (uuids : Nat → String) (dc : String) (d : Json)
    (ctr : Nat) (x : Dish) (c' : Nat)
    (h : normalizeDish uuids dc d ctr = Except.ok (x, c')) :
    (x.id, c') = pickId uuids ctr (jsGetTotal d ("id")) := by
  rcases hp : pickId uuids ctr (jsGetTotal d ("id")) with ⟨idv, c1⟩
  unfold normalizeDish at h
  split at h
  · exact absurd h (by simp)
  · exact absurd h (by simp)
  · rw [hp] at h
    dsimp only at h
    cases h
    rfl

/-- The id and counter of a successfully normalized beverage come from
`pickId` on the source element's `id` property. -/
theorem normalizeBeverage_ok_id (uuids : Nat → String) (b : Json)
    (ctr : Nat) (x : Beverage) (c' : Nat)
    (h : normalizeBeverage uuids b ctr = Except.ok (x, c')) :
    (x.id, c') = pickId uuids ctr (jsGetTotal b ("id")) := by
  rcases hp : pickId uuids ctr (jsGetTotal b ("id")) with ⟨idv, c1⟩
  unfold normalizeBeverage at h
  split at h
  · exact absurd h (by simp)
  · exact absurd h (by simp)
  · rw [hp] at h
    dsimp only at h
    cases h
    rfl

/-- The id and counter of a successfully normalized pairing reason come
from `pickId` on the source element's `id` property. -/
theorem normalizeReason_ok_id (uuids : Nat → String) (r : Json)
    (ctr : Nat) (x : PairingReason) (c' : Nat)
    (h : normalizeReason uuids r ctr = Except.ok (x, c')) :
    (x.id, c') = pickId uuids ctr (jsGetTotal r ("id")) := by
  rcases hp : pickId uuids ctr (jsGetTotal r ("id")) with ⟨idv, c1⟩
  unfold normalizeReason at h
  split at h
  · exact absurd h (by simp)
  · exact absurd h (by simp)
  · rw [hp] at h
    dsimp only at h
    cases h
    rfl

/-- A `pickId` result is truthy whenever the UUID supply never returns
the empty string. -/
theorem pickId_truthy (uuids : Nat → String) (ctr : Nat) (raw : Json)
    (hu : ∀ n, uuids n ≠ "") : jsTruthy (pickId uuids ctr raw).1 = true := by
  unfold pickId
  by_cases ht : jsTruthy raw = true
  · rw [if_pos ht]
    exact ht
  · rw [if_neg ht]
    simp [jsTruthy, hu ctr]

/-- Every dish produced by a successful normalization has a truthy id. -/
theorem normalizeDishes_ids_truthy (uuids : Nat → String) (dc : String)
    (hu : ∀ n, uuids n ≠ "") :
    ∀ (l : List Json) (ctr : Nat) (ds : List Dish) (c' : Nat),
      normalizeDishes uuids dc l ctr = Except.ok (ds, c') →
      ∀ x ∈ ds, jsTruthy x.id = true := by
  intro l
  induction l with
  | nil =>
    intro ctr ds c' h x hx
    unfold normalizeDishes at h
    cases h
    simp at hx
  | cons d rest ih =>
    intro ctr ds c' h x hx
    unfold normalizeDishes at h
    cases hD : normalizeDish uuids dc d ctr with
    | error e =>
      rw [hD] at h
      simp at h
    | ok p =>
      rcases p with ⟨x1, c1⟩
      rw [hD] at h
      dsimp only at h
      cases hR : normalizeDishes uuids dc rest c1 with
      | error e =>
        rw [hR] at h
        simp at h
      | ok q =>
        rcases q with ⟨xs, c2⟩
        rw [hR] at h
        dsimp only at h
        cases h
        rcases List.mem_cons.mp hx with rfl | hx2
        · have hid := normalizeDish_ok_id uuids dc d ctr x c1 hD
          rw [Prod.mk.injEq] at hid
          rw [hid.1]
          exact pickId_truthy uuids ctr _ hu
        · exact ih c1 xs _ hR x hx2

/-- Every beverage produced by a successful normalization has a truthy
id. -/
theorem normalizeBeverages_ids_truthy (uuids : Nat → String)
    (hu : ∀ n, uuids n ≠ "") :
    ∀ (l : List Json) (ctr : Nat) (bs : List Beverage) (c' : Nat),
      normalizeBeverages uuids l ctr = Except.ok (bs, c') →
      ∀ x ∈ bs, jsTruthy x.id = true := by
  intro l
  induction l with
  | nil =>
    intro ctr bs c' h x hx
    unfold normalizeBeverages at h
    cases h
    simp at hx
  | cons b rest ih =>
    intro ctr bs c' h x hx
    unfold normalizeBeverages at h
    cases hD : normalizeBeverage uuids b ctr with
    | error e =>
      rw [hD] at h
      simp at h
    | ok p =>
      rcases p with ⟨x1, c1⟩
      rw [hD] at h
      dsimp only at h
      cases hR : normalizeBeverages uuids rest c1 with
      | error e =>
        rw [hR] at h
        simp at h
      | ok q =>
        rcases q with ⟨xs, c2⟩
        rw [hR] at h
        dsimp only at h
        cases h
        rcases List.mem_cons.mp hx with rfl | hx2
        · have hid := normalizeBeverage_ok_id uuids b ctr x c1 hD
          rw [Prod.mk.injEq] at hid
          rw [hid.1]
          exact pickId_truthy uuids ctr _ hu
        · exact ih c1 xs _ hR x hx2

/-- Every pairing reason produced by a successful normalization has a
truthy id. -/
theorem normalizeReasons_ids_truthy (uuids : Nat → String)
    (hu : ∀ n, uuids n ≠ "") :
    ∀ (l : List Json) (ctr : Nat) (rs : List PairingReason) (c' : Nat),
      normalizeReasons uuids l ctr = Except.ok (rs, c') →
      ∀ x ∈ rs, jsTruthy x.id = true := by
  intro l
  induction l with
  | nil =>
    intro ctr rs c' h x hx
    unfold normalizeReasons at h
    cases h
    simp at hx
  | cons r rest ih =>
    intro ctr rs c' h x hx
    unfold normalizeReasons at h
    cases hD : normalizeReason uuids r ctr with
    | error e =>
      rw [hD] at h
      simp at h
    | ok p =>
      rcases p with ⟨x1, c1⟩
      rw [hD] at h
      dsimp only at h
      cases hR : normalizeReasons uuids rest c1 with
      | error e =>
        rw [hR] at h
        simp at h
      | ok q =>
        rcases q with ⟨xs, c2⟩
        rw [hR] at h
        dsimp only at h
        cases h
        rcases List.mem_cons.mp hx with rfl | hx2
        · have hid := normalizeReason_ok_id uuids r ctr x c1 hD
          rw [Prod.mk.injEq] at hid
          rw [hid.1]
          exact pickId_truthy uuids ctr _ hu
        · exact ih c1 xs _ hR x hx2

/-- When every source element's id is falsy, normalization assigns the
consecutive freshly generated UUIDs. -/
theorem normalizeDishes_fresh_ids (uuids : Nat → String) (dc : String) :
    ∀ (l : List Json) (ctr : Nat) (ds : List Dish) (c' : Nat),
      normalizeDishes uuids dc l ctr = Except.ok (ds, c') →
      (∀ d ∈ l, jsTruthy (jsGetTotal d ("id")) = false) →
      ds.map Dish.id = (List.range' ctr l.length).map (fun k => Json.str (uuids k)) := by
  intro l
  induction l with
  | nil =>
    intro ctr ds c' h _
    unfold normalizeDishes at h
    cases h
    rfl
  | cons d rest ih =>
    intro ctr ds c' h hsrc
    unfold normalizeDishes at h
    cases hD : normalizeDish uuids dc d ctr with
    | error e =>
      rw [hD] at h
      simp at h
    | ok p =>
      rcases p with ⟨x1, c1⟩
      rw [hD] at h
      dsimp only at h
      cases hR : normalizeDishes uuids dc rest c1 with
      | error e =>
        rw [hR] at h
        simp at h
      | ok q =>
        rcases q with ⟨xs, c2⟩
        rw [hR] at h
        dsimp only at h
        cases h
        have hid := normalizeDish_ok_id uuids dc d ctr x1 c1 hD
        unfold pickId at hid
        rw [if_neg (by rw [hsrc d (List.mem_cons_self _ _)]; simp)] at hid
        rw [Prod.mk.injEq] at hid
        obtain ⟨hid1, hid2⟩ := hid
        subst hid2
        have hrest := ih (ctr + 1) xs _ hR
          (fun t ht => hsrc t (List.mem_cons_of_mem _ ht))
        have hr : List.range' ctr ((d :: rest).length) =
            ctr :: List.range' (ctr + 1) rest.length := rfl
        rw [hr, List.map_cons, List.map_cons, hid1, hrest]

/-- When every source element's id is falsy, beverage normalization
assigns the consecutive freshly generated UUIDs. -/
theorem normalizeBeverages_fresh_ids (uuids : Nat → String) :
    ∀ (l : List Json) (ctr : Nat) (bs : List Beverage) (c' : Nat),
      normalizeBeverages uuids l ctr = Except.ok (bs, c') →
      (∀ b ∈ l, jsTruthy (jsGetTotal b ("id")) = false) →
      bs.map Beverage.id = (List.range' ctr l.length).map (fun k => Json.str (uuids k)) := by
  intro l
  induction l with
  | nil =>
    intro ctr bs c' h _
    unfold normalizeBeverages at h
    cases h
    rfl
  | cons b rest ih =>
    intro ctr bs c' h hsrc
    unfold normalizeBeverages at h
    cases hD : normalizeBeverage uuids b ctr with
    | error e =>
      rw [hD] at h
      simp at h
    | ok p =>
      rcases p with ⟨x1, c1⟩
      rw [hD] at h
      dsimp only at h
      cases hR : normalizeBeverages uuids rest c1 with
      | error e =>
        rw [hR] at h
        simp at h
      | ok q =>
        rcases q with ⟨xs, c2⟩
        rw [hR] at h
        dsimp only at h
        cases h
        have hid := normalizeBeverage_ok_id uuids b ctr x1 c1 hD
        unfold pickId at hid
        rw [if_neg (by rw [hsrc b (List.mem_cons_self _ _)]; simp)] at hid
        rw [Prod.mk.injEq] at hid
        obtain ⟨hid1, hid2⟩ := hid
        subst hid2
        have hrest := ih (ctr + 1) xs _ hR
          (fun t ht => hsrc t (List.mem_cons_of_mem _ ht))
        have hr : List.range' ctr ((b :: rest).length) =
            ctr :: List.range' (ctr + 1) rest.length := rfl
        rw [hr, List.map_cons, List.map_cons, hid1, hrest]

/-- When every source element's id is falsy, pairing-reason
normalization assigns the consecutive freshly generated UUIDs. -/
theorem normalizeReasons_fresh_ids (uuids : Nat → String) :
    ∀ (l : List Json) (ctr : Nat) (rs : List PairingReason) (c' : Nat),
      normalizeReasons uuids l ctr = Except.ok (rs, c') →
      (∀ r ∈ l, jsTruthy (jsGetTotal r ("id")) = false) →
      rs.map PairingReason.id =
        (List.range' ctr l.length).map (fun k => Json.str (uuids k)) := by
  intro l
  induction l with
  | nil =>
    intro ctr rs c' h _
    unfold normalizeReasons at h
    cases h
    rfl
  | cons r rest ih =>
    intro ctr rs c' h hsrc
    unfold normalizeReasons at h
    cases hD : normalizeReason uuids r ctr with
    | error e =>
      rw [hD] at h
      simp at h
    | ok p =>
      rcases p with ⟨x1, c1⟩
      rw [hD] at h
      dsimp only at h
      cases hR : normalizeReasons uuids rest c1 with
      | error e =>
        rw [hR] at h
        simp at h
      | ok q =>
        rcases q with ⟨xs, c2⟩
        rw [hR] at h
        dsimp only at h
        cases h
        have hid := normalizeReason_ok_id uuids r ctr x1 c1 hD
        unfold pickId at hid
        rw [if_neg (by rw [hsrc r (List.mem_cons_self _ _)]; simp)] at hid
        rw [Prod.mk.injEq] at hid
        obtain ⟨hid1, hid2⟩ := hid
        subst hid2
        have hrest := ih (ctr + 1) xs _ hR
          (fun t ht => hsrc t (List.mem_cons_of_mem _ ht))
        have hr : List.range' ctr ((r :: rest).length) =
            ctr :: List.range' (ctr + 1) rest.length := rfl
        rw [hr, List.map_cons, List.map_cons, hid1, hrest]

/-- A successful `buildPairing` draws its beverage and pairing-reason
collections from the two normalizations, with the counter threaded. -/
theorem buildPairing_ok_collections (uuids : Nat → String) (now model : String)
    (parsed : Json) (dishes : List Dish) (res : CompletePairingRecommendation)
    (h : buildPairing uuids now model parsed dishes = Except.ok res) :
    ∃ c1 c2,
      normalizeBeverages uuids (asArrayOrEmpty (jsGetTotal parsed ("beverages"))) 0 =
        Except.ok (res.beverages, c1) ∧
      normalizeReasons uuids (asArrayOrEmpty (jsGetTotal parsed ("pairingReasons"))) c1 =
        Except.ok (res.pairingReasons, c2) := by
  unfold buildPairing at h
  cases hN : normalizeBeverages uuids (asArrayOrEmpty (jsGetTotal parsed ("beverages"))) 0 with
  | error e =>
    rw [hN] at h
    simp at h
  | ok p =>
    rcases p with ⟨bevs, c1⟩
    rw [hN] at h
    dsimp only at h
    cases hR : normalizeReasons uuids
        (asArrayOrEmpty (jsGetTotal parsed ("pairingReasons"))) c1 with
    | error e =>
      rw [hR] at h
      simp at h
    | ok q =>
      rcases q with ⟨rs, c2⟩
      rw [hR] at h
      dsimp only at h
      cases h
      exact ⟨c1, c2, rfl, hR⟩

/-- The dish recovery either returns the empty list or the normalization
of the extracted and parsed source array. -/
theorem parseDish_sources (uuids : Nat → String) (content dc : String) :
    parseDishRecommendations uuids content dc = [] ∨
    ∃ blk l ds c', extractBlock '[' ']' content = some blk ∧
      parseJson blk = some (Json.arr l) ∧
      normalizeDishes uuids dc l 0 = Except.ok (ds, c') ∧
      parseDishRecommendations uuids content dc = ds := by
  unfold parseDishRecommendations tryParseDishes
  cases hE : extractBlock '[' ']' content with
  | none => exact Or.inl rfl
  | some blk =>
    try dsimp only
    cases hP : parseJson blk with
    | none => exact Or.inl rfl
    | some j =>
      try dsimp only
      cases j with
      | arr l =>
        try dsimp only
        cases hN : normalizeDishes uuids dc l 0 with
        | error e => exact Or.inl rfl
        | ok p =>
          rcases p with ⟨ds, c'⟩
          exact Or.inr ⟨blk, l, ds, c', rfl, hP, hN, rfl⟩
      | undef => exact Or.inl rfl
      | null => exact Or.inl rfl
      | bool b => exact Or.inl rfl
      | num q => exact Or.inl rfl
      | str s => exact Or.inl rfl
      | obj fs => exact Or.inl rfl

/-- The pairing recovery either falls back to empty collections or draws
them from the two normalizations over the parsed brace block. -/
theorem parsePairing_sources (uuids : Nat → String) (now model content : String)
    (dishes : List Dish) :
    ((parseBeveragePairing uuids now model content dishes).beverages = [] ∧
      (parseBeveragePairing uuids now model content dishes).pairingReasons = []) ∨
    ∃ blk parsed c1 c2, extractBlock '{' '}' content = some blk ∧
      parseJson blk = some parsed ∧
      normalizeBeverages uuids (asArrayOrEmpty (jsGetTotal parsed ("beverages"))) 0 =
        Except.ok ((parseBeveragePairing uuids now model content dishes).beverages, c1) ∧
      normalizeReasons uuids (asArrayOrEmpty (jsGetTotal parsed ("pairingReasons"))) c1 =
        Except.ok ((parseBeveragePairing uuids now model content dishes).pairingReasons, c2) := by
  unfold parseBeveragePairing
  cases hE : extractBlock '{' '}' content with
  | none => exact Or.inl ⟨rfl, rfl⟩
  | some blk =>
    try dsimp only
    cases hP : parseJson blk with
    | none => exact Or.inl ⟨rfl, rfl⟩
    | some parsed =>
      try dsimp only
      cases hB : buildPairing uuids now model parsed dishes with
      | error e => exact Or.inl ⟨rfl, rfl⟩
      | ok res =>
        obtain ⟨c1, c2, hN, hR⟩ :=
          buildPairing_ok_collections uuids now model parsed dishes res hB
        exact Or.inr ⟨blk, parsed, c1, c2, rfl, hP, hN, hR⟩

/-- C9 counterexample: a source array carrying the same explicit id
twice is normalized into two records with the same id, so ids are not
unique within the collection. -/
theorem c9_counterexample :
    (parseDishRecommendations uuW
        ("[\x7b\"id\":\"a\"\x7d,\x7b\"id\":\"a\"\x7d]") ("通用")).map Dish.id =
      [Json.str ("a"), Json.str ("a")] ∧
    ¬ ((parseDishRecommendations uuW
        ("[\x7b\"id\":\"a\"\x7d,\x7b\"id\":\"a\"\x7d]") ("通用")).map Dish.id).Nodup := by
  constructor
  · rfl
  · intro h
    rw [show (parseDishRecommendations uuW
        ("[\x7b\"id\":\"a\"\x7d,\x7b\"id\":\"a\"\x7d]") ("通用")).map Dish.id =
      [Json.str ("a"), Json.str ("a")] from rfl] at h
    exact (List.nodup_cons.mp h).1 (List.mem_singleton.mpr rfl)

/-- C9 amended: every record produced by `parseDishRecommendations` and
`parseBeveragePairing` has a truthy (in particular non-empty) id, the
fresh ids coming from the UUID supply; and the ids of each of the three
collections (dishes, beverages, pairing reasons) are pairwise distinct
whenever every source record of that collection has an absent or falsy
id (so that all its ids are freshly generated) and the supply is
injective. Source-supplied ids are copied unchecked, so duplicates in
the source violate uniqueness, and `extractFromText` records carry no
id at all. -/
theorem c9_amended_ids (uuids : Nat → String) (dc now model content : String)
    (dishes : List Dish) (hu : ∀ n, uuids n ≠ "")
    (hinj : Function.Injective uuids) :
    (∀ x ∈ parseDishRecommendations uuids content dc, jsTruthy x.id = true) ∧
    (∀ b ∈ (parseBeveragePairing uuids now model content dishes).beverages,
      jsTruthy b.id = true) ∧
    (∀ r ∈ (parseBeveragePairing uuids now model content dishes).pairingReasons,
      jsTruthy r.id = true) ∧
    ((∀ blk l, extractBlock '[' ']' content = some blk →
        parseJson blk = some (Json.arr l) →
        ∀ d ∈ l, jsTruthy (jsGetTotal d ("id")) = false) →
      ((parseDishRecommendations uuids content dc).map Dish.id).Nodup) ∧
    ((∀ blk j, extractBlock '{' '}' content = some blk →
        parseJson blk = some j →
        ∀ b ∈ asArrayOrEmpty (jsGetTotal j ("beverages")),
          jsTruthy (jsGetTotal b ("id")) = false) →
      (((parseBeveragePairing uuids now model content dishes).beverages).map
        Beverage.id).Nodup) ∧
    ((∀ blk j, extractBlock '{' '}' content = some blk →
        parseJson blk = some j →
        ∀ r ∈ asArrayOrEmpty (jsGetTotal j ("pairingReasons")),
          jsTruthy (jsGetTotal r ("id")) = false) →
      (((parseBeveragePairing uuids now model content dishes).pairingReasons).map
        PairingReason.id).Nodup) := by
  refine ⟨?_, ?_, ?_, ?_, ?_, ?_⟩
  · rcases parseDish_sources uuids content dc with hnil | ⟨blk, l, ds, c', hE, hP, hN, hds⟩
    · rw [hnil]
      intro x hx
      simp at hx
    · rw [hds]
      exact normalizeDishes_ids_truthy uuids dc hu l 0 ds c' hN
  · rcases parsePairing_sources uuids now model content dishes with ⟨hb, _⟩ |
      ⟨blk, parsed, c1, c2, hE, hP, hN, _⟩
    · rw [hb]
      intro x hx
      simp at hx
    · exact normalizeBeverages_ids_truthy uuids hu _ 0 _ c1 hN
  · rcases parsePairing_sources uuids now model content dishes with ⟨_, hr⟩ |
      ⟨blk, parsed, c1, c2, hE, hP, _, hR⟩
    · rw [hr]
      intro x hx
      simp at hx
    · exact normalizeReasons_ids_truthy uuids hu _ c1 _ c2 hR
  · intro hsrc
    rcases parseDish_sources uuids content dc with hnil | ⟨blk, l, ds, c', hE, hP, hN, hds⟩
    · rw [hnil]
      simp
    · rw [hds]
      rw [normalizeDishes_fresh_ids uuids dc l 0 ds c' hN (hsrc blk l hE hP)]
      refine List.Nodup.map ?_ (List.nodup_range' 0 l.length 1 (by omega))
      intro a b hab
      simp only [Json.str.injEq] at hab
      exact hinj hab
  · intro hsrc
    rcases parsePairing_sources uuids now model content dishes with ⟨hb, _⟩ |
      ⟨blk, parsed, c1, c2, hE, hP, hN, _⟩
    · rw [hb]
      simp
    · rw [normalizeBeverages_fresh_ids uuids _ 0 _ c1 hN (hsrc blk parsed hE hP)]
      refine List.Nodup.map ?_ (List.nodup_range' 0 _ 1 (by omega))
      intro a b hab
      simp only [Json.str.injEq] at hab
      exact hinj hab
  · intro hsrc
    rcases parsePairing_sources uuids now model content dishes with ⟨_, hr⟩ |
      ⟨blk, parsed, c1, c2, hE, hP, _, hR⟩
    · rw [hr]
      simp
    · rw [normalizeReasons_fresh_ids uuids _ c1 _ c2 hR (hsrc blk parsed hE hP)]
      refine List.Nodup.map ?_ (List.nodup_range' c1 _ 1 (by omega))
      intro a b hab
      simp only [Json.str.injEq] at hab
      exact hinj hab

/-- An injective, never-empty UUID supply for the C9 witness. -/
def uuInjW : Nat → String := fun n => String.mk ('u' :: List.replicate n 'x')

/-- Witness for C9's amended theorem: a source array of two id-less dish
records yields truthy, pairwise-distinct dish ids, and a brace block
with two id-less beverages and one id-less pairing reason yields
pairwise-distinct beverage ids and pairing-reason ids. -/
theorem c9_amended_ids_witness :
    (∀ x ∈ parseDishRecommendations uuInjW ("[\x7b\x7d,\x7b\x7d]") ("通用"),
      jsTruthy x.id = true) ∧
    ((parseDishRecommendations uuInjW ("[\x7b\x7d,\x7b\x7d]") ("通用")).map Dish.id).Nodup ∧
    (((parseBeveragePairing uuInjW ("t") ("m")
        ("\x7b\"beverages\":[\x7b\x7d,\x7b\x7d],\"pairingReasons\":[\x7b\x7d]\x7d")
        []).beverages).map Beverage.id).Nodup ∧
    (((parseBeveragePairing uuInjW ("t") ("m")
        ("\x7b\"beverages\":[\x7b\x7d,\x7b\x7d],\"pairingReasons\":[\x7b\x7d]\x7d")
        []).pairingReasons).map PairingReason.id).Nodup := by
  have hu : ∀ n, uuInjW n ≠ "" := by
    intro n h
    have := congrArg String.data h
    simp [uuInjW] at this
  have hinj : Function.Injective uuInjW := by
    intro a b h
    have := congrArg (fun s => s.data.length) h
    simpa [uuInjW] using this
  have hsrc : ∀ blk l, extractBlock '[' ']' ("[\x7b\x7d,\x7b\x7d]") = some blk →
      parseJson blk = some (Json.arr l) →
      ∀ d ∈ l, jsTruthy (jsGetTotal d ("id")) = false := by
    intro blk l hb hp d hd
    have hb2 : blk = "[\x7b\x7d,\x7b\x7d]" := by
      rw [show extractBlock '[' ']' ("[\x7b\x7d,\x7b\x7d]") =
        some ("[\x7b\x7d,\x7b\x7d]") from rfl] at hb
      exact (Option.some.inj hb).symm
    subst hb2
    rw [show parseJson ("[\x7b\x7d,\x7b\x7d]") =
      some (Json.arr [Json.obj [], Json.obj []]) from rfl] at hp
    have hl : l = [Json.obj [], Json.obj []] := by
      cases Option.some.inj hp
      rfl
    subst hl
    rcases List.mem_cons.mp hd with rfl | hd2
    · rfl
    · rcases List.mem_cons.mp hd2 with rfl | hd3
      · rfl
      · simp at hd3
  have hsrcB : ∀ blk j, extractBlock '{' '}'
        ("\x7b\"beverages\":[\x7b\x7d,\x7b\x7d],\"pairingReasons\":[\x7b\x7d]\x7d") = some blk →
      parseJson blk = some j →
      ∀ b ∈ asArrayOrEmpty (jsGetTotal j ("beverages")),
        jsTruthy (jsGetTotal b ("id")) = false := by
    intro blk j hb hp b hbm
    have hb2 : blk =
        "\x7b\"beverages\":[\x7b\x7d,\x7b\x7d],\"pairingReasons\":[\x7b\x7d]\x7d" := by
      rw [show extractBlock '{' '}'
          ("\x7b\"beverages\":[\x7b\x7d,\x7b\x7d],\"pairingReasons\":[\x7b\x7d]\x7d") =
        some ("\x7b\"beverages\":[\x7b\x7d,\x7b\x7d],\"pairingReasons\":[\x7b\x7d]\x7d")
          from rfl] at hb
      exact (Option.some.inj hb).symm
    subst hb2
    rw [show parseJson
        ("\x7b\"beverages\":[\x7b\x7d,\x7b\x7d],\"pairingReasons\":[\x7b\x7d]\x7d") =
      some (Json.obj
        [("beverages", Json.arr [Json.obj [], Json.obj []]),
         ("pairingReasons", Json.arr [Json.obj []])]) from rfl] at hp
    have hj : j = Json.obj
        [("beverages", Json.arr [Json.obj [], Json.obj []]),
         ("pairingReasons", Json.arr [Json.obj []])] := (Option.some.inj hp).symm
    subst hj
    have hbm2 : b ∈ [Json.obj [], Json.obj []] := hbm
    rcases List.mem_cons.mp hbm2 with rfl | h2
    · rfl
    · rcases List.mem_cons.mp h2 with rfl | h3
      · rfl
      · simp at h3
  have hsrcR : ∀ blk j, extractBlock '{' '}'
        ("\x7b\"beverages\":[\x7b\x7d,\x7b\x7d],\"pairingReasons\":[\x7b\x7d]\x7d") = some blk →
      parseJson blk = some j →
      ∀ r ∈ asArrayOrEmpty (jsGetTotal j ("pairingReasons")),
        jsTruthy (jsGetTotal r ("id")) = false := by
    intro blk j hb hp r hrm
    have hb2 : blk =
        "\x7b\"beverages\":[\x7b\x7d,\x7b\x7d],\"pairingReasons\":[\x7b\x7d]\x7d" := by
      rw [show extractBlock '{' '}'
          ("\x7b\"beverages\":[\x7b\x7d,\x7b\x7d],\"pairingReasons\":[\x7b\x7d]\x7d") =
        some ("\x7b\"beverages\":[\x7b\x7d,\x7b\x7d],\"pairingReasons\":[\x7b\x7d]\x7d")
          from rfl] at hb
      exact (Option.some.inj hb).symm
    subst hb2
    rw [show parseJson
        ("\x7b\"beverages\":[\x7b\x7d,\x7b\x7d],\"pairingReasons\":[\x7b\x7d]\x7d") =
      some (Json.obj
        [("beverages", Json.arr [Json.obj [], Json.obj []]),
         ("pairingReasons", Json.arr [Json.obj []])]) from rfl] at hp
    have hj : j = Json.obj
        [("beverages", Json.arr [Json.obj [], Json.obj []]),
         ("pairingReasons", Json.arr [Json.obj []])] := (Option.some.inj hp).symm
    subst hj
    have hrm2 : r ∈ [Json.obj []] := hrm
    rcases List.mem_cons.mp hrm2 with rfl | h2
    · rfl
    · simp at h2
  exact ⟨(c9_amended_ids uuInjW ("通用") ("t") ("m") ("[\x7b\x7d,\x7b\x7d]") [] hu hinj).1,
    (c9_amended_ids uuInjW ("通用") ("t") ("m") ("[\x7b\x7d,\x7b\x7d]") [] hu hinj).2.2.2.1 hsrc,
    (c9_amended_ids uuInjW ("通用") ("t") ("m")
      ("\x7b\"beverages\":[\x7b\x7d,\x7b\x7d],\"pairingReasons\":[\x7b\x7d]\x7d")
      [] hu hinj).2.2.2.2.1 hsrcB,
    (c9_amended_ids uuInjW ("通用") ("t") ("m")
      ("\x7b\"beverages\":[\x7b\x7d,\x7b\x7d],\"pairingReasons\":[\x7b\x7d]\x7d")
      [] hu hinj).2.2.2.2.2 hsrcR⟩

end Bartender
